import Mathlib

/-!
Verification of the maegeul-api RAG core against its specification.

The development shallowly embeds the TypeScript source:

* JavaScript `Date` values are epoch milliseconds (`Int`), with the host's
  local time zone taken to be UTC (a fixed zero offset); an invalid date
  (ECMA-262 time value NaN) is `none : Option Int`.  Calendar arithmetic
  follows ECMA-262 (`DayFromYear`, `MakeDay`, `TimeClip`, the `MakeFullYear`
  0–99 → 1900-relative year quirk of the `Date(y, m, d)` constructor).
* Strings are Lean `String`/`List Char`; the regular expressions of
  `parseDateRange` are compiled by hand into scanners with the same
  leftmost-match semantics; `String.prototype.toLowerCase` is modelled on
  ASCII letters only (every string the service manipulates is Korean or
  ASCII), and `\s` as the common whitespace characters.
* SQL queries (`pgvector` search, semantic cache) become pure functions of an
  explicit database value.  The cosine-distance operator `<=>` is abstracted
  as a parameter `dist`; every claimed property is independent of the metric.
* External providers (OpenAI embeddings/chat) are oracles passed as
  function parameters.
-/

/-- Milliseconds per day (ECMA-262 msPerDay). -/
def MS_PER_DAY : Int := 86400000

/-- Largest representable ECMA-262 time value: 8.64e15 ms either side of the
epoch; `TimeClip` turns anything larger into an invalid date. -/
def MAX_TIME_VALUE : Int := 8640000000000000

/-- ECMA-262 TimeClip: a time value farther than 8.64e15 ms from the epoch
becomes an invalid date (`none`). -/
def jsTimeClip (t : Int) : Option Int :=
  if -MAX_TIME_VALUE ≤ t ∧ t ≤ MAX_TIME_VALUE then some t else none

/-- ECMA-262 DayFromYear: day number (days since 1970-01-01) of 1 January of
year `y`. -/
def DayFromYear (y : Int) : Int :=
  365 * (y - 1970) + (y - 1969) / 4 - (y - 1901) / 100 + (y - 1601) / 400

/-- ECMA-262 InLeapYear as a number (0 or 1), i.e. DaysInYear y - 365. -/
def InLeapYear (y : Int) : Int :=
  if y % 4 = 0 && (y % 100 != 0 || y % 400 = 0) then 1 else 0

/-- First day (within the year, 0-based) of 0-based month `m` for a year with
`L = InLeapYear y`: 0, 31, 59+L, 90+L, ..., 334+L (and 365+L for m = 12). -/
def monthStartDay (m L : Int) : Int :=
  (if m ≤ 1 then 31 * m else (153 * (m - 2) + 2) / 5 + 59) + (if 2 ≤ m then L else 0)

/-- ECMA-262 MonthFromTime (0-based month) from the day-within-year and the
leap number of the year. -/
def monthFromDwy (dwy L : Int) : Int :=
  if dwy < 31 then 0
  else if dwy < 59 + L then 1
  else 2 + (5 * (dwy - 59 - L) + 2) / 153

/-- ECMA-262 YearFromTime at day granularity: the unique `y` with
`DayFromYear y ≤ d < DayFromYear (y+1)`, computed by approximation plus
correction. -/
def YearFromDay (d : Int) : Int :=
  if DayFromYear (1970 + 400 * d / 146097 + 1) ≤ d then
    (if DayFromYear (1970 + 400 * d / 146097 + 2) ≤ d then 1970 + 400 * d / 146097 + 2
     else 1970 + 400 * d / 146097 + 1)
  else if DayFromYear (1970 + 400 * d / 146097) ≤ d then 1970 + 400 * d / 146097
  else 1970 + 400 * d / 146097 - 1

/-- Day within the year of a day number (ECMA-262 DayWithinYear). -/
def dayWithinYear (d : Int) : Int := d - DayFromYear (YearFromDay d)

/-- ECMA-262 MakeDay: day number for year `y`, 0-based month `m` (any
integer, normalized by floored div/mod 12), day-of-month `dt` (any integer,
entering linearly). -/
def jsMakeDay (y m dt : Int) : Int :=
  DayFromYear (y + m / 12) + monthStartDay (m % 12) (InLeapYear (y + m / 12)) + dt - 1

/-- The 0-based month of a day number (ECMA-262 MonthFromTime). -/
def jsMonthOfDay (d : Int) : Int := monthFromDwy (dayWithinYear d) (InLeapYear (YearFromDay d))

/-- The day-of-month (1-based) of a day number (ECMA-262 DateFromTime). -/
def jsDateOfDay (d : Int) : Int :=
  dayWithinYear d - monthStartDay (jsMonthOfDay d) (InLeapYear (YearFromDay d)) + 1

/-- ECMA-262 MakeFullYear quirk of the `Date(y, m, d)` constructor: an
integer year in [0, 99] is taken relative to 1900. -/
def jsMakeFullYear (y : Int) : Int := if 0 ≤ y ∧ y ≤ 99 then 1900 + y else y

/-- Day number (local, with the fixed zero offset) of a valid time value. -/
def jsDayOf (t : Int) : Int := t / MS_PER_DAY

/-- Time within the day of a valid time value (non-negative). -/
def jsTimeWithinDay (t : Int) : Int := t % MS_PER_DAY

/-- `Date.prototype.getFullYear` of a valid time value. -/
def jsGetFullYear (t : Int) : Int := YearFromDay (jsDayOf t)

/-- `Date.prototype.getMonth` (0-based) of a valid time value. -/
def jsGetMonth (t : Int) : Int := jsMonthOfDay (jsDayOf t)

/-- `Date.prototype.getDate` (1-based day of month) of a valid time value. -/
def jsGetDate (t : Int) : Int := jsDateOfDay (jsDayOf t)

/-- `Date.prototype.getDay` (0 = Sunday); the epoch day was a Thursday. -/
def jsGetDay (t : Int) : Int := (jsDayOf t + 4) % 7

/-- `new Date(y, mo, dt)` at local midnight: MakeFullYear, MakeDay, TimeClip. -/
def jsNewDateYMD (y mo dt : Int) : Option Int :=
  jsTimeClip (jsMakeDay (jsMakeFullYear y) mo dt * MS_PER_DAY)

/-- `d.setDate(n)` on a valid date value `t`: rebuild the day from the
current year and month with day-of-month `n`, keep the time of day, clip. -/
def jsSetDate (t n : Int) : Option Int :=
  jsTimeClip (jsMakeDay (jsGetFullYear t) (jsGetMonth t) n * MS_PER_DAY + jsTimeWithinDay t)

/-- `d.setMonth(n)` on a valid date value `t`: rebuild the day from the
current year and day-of-month with 0-based month `n` (normalized), keep the
time of day, clip. -/
def jsSetMonth (t n : Int) : Option Int :=
  jsTimeClip (jsMakeDay (jsGetFullYear t) n (jsGetDate t) * MS_PER_DAY + jsTimeWithinDay t)

/-- `d.setHours(23, 59, 59, 999)` on a valid date value: the last
millisecond of the same local day. -/
def jsEndOfDay (t : Int) : Int := jsDayOf t * MS_PER_DAY + (MS_PER_DAY - 1)

/-- Local midnight of the current clock value, as built by the source's
`new Date(now.getFullYear(), now.getMonth(), now.getDate())`. -/
def jsTodayFrom (now : Int) : Option Int :=
  jsNewDateYMD (jsGetFullYear now) (jsGetMonth now) (jsGetDate now)

/-- Whitespace for the purposes of `\s` and `String.prototype.trim` (the
subset actually occurring in the service's data). -/
def isWsChar (c : Char) : Bool :=
  c = ' ' || c = '\t' || c = '\n' || c = '\r' || c = '\x0b' || c = '\x0c'

/-- ASCII digit, the JavaScript `\d` class. -/
def isDigitChar (c : Char) : Bool := '0' ≤ c && c ≤ '9'

/-- Numeric value of an ASCII digit. -/
def digitVal (c : Char) : Nat := c.toNat - '0'.toNat

/-- The JavaScript `\w` class: ASCII letters, digits and underscore. -/
def isWordChar (c : Char) : Bool :=
  ('a' ≤ c && c ≤ 'z') || ('A' ≤ c && c ≤ 'Z') || ('0' ≤ c && c ≤ '9') || c = '_'

/-- The Hangul syllable block `가-힣` used by the source's character classes. -/
def isHangulChar (c : Char) : Bool := 0xAC00 ≤ c.toNat && c.toNat ≤ 0xD7A3

/-- `String.prototype.toLowerCase` restricted to ASCII letters (the only
case-carrying characters in the service's inputs). -/
def jsToLowerChar (c : Char) : Char :=
  if 'A' ≤ c && c ≤ 'Z' then Char.ofNat (c.toNat + 32) else c

/-- Does the pattern occur at the very start of the list? -/
def startsWithL : List Char → List Char → Bool
  | [], _ => true
  | _ :: _, [] => false
  | p :: ps, c :: cs => p = c && startsWithL ps cs

/-- Substring test (`String.prototype.includes`). -/
def containsSub (pat : List Char) : List Char → Bool
  | [] => startsWithL pat []
  | c :: rest => startsWithL pat (c :: rest) || containsSub pat rest

/-- Drop a run of whitespace (the `\s*` of the source's regexes; greedy
matching is exact here because whitespace never overlaps the neighbouring
literals or digits). -/
def skipWs : List Char → List Char
  | [] => []
  | c :: rest => if isWsChar c then skipWs rest else c :: rest

/-- Greedily read further digits, accumulating the value (`parseInt` of a
digit capture; the model keeps exact integers where JavaScript would lose
precision past 2^53). -/
def takeDigitsAux (acc : Nat) : List Char → Nat × List Char
  | [] => (acc, [])
  | c :: rest =>
    if isDigitChar c then takeDigitsAux (10 * acc + digitVal c) rest else (acc, c :: rest)

/-- Read one or more digits (the `(\d+)` capture). -/
def takeDigits1 : List Char → Option (Nat × List Char)
  | [] => none
  | c :: rest => if isDigitChar c then some (takeDigitsAux (digitVal c) rest) else none

/-- Consume a literal. -/
def stripLit : List Char → List Char → Option (List Char)
  | [], l => some l
  | _ :: _, [] => none
  | p :: ps, c :: cs => if p = c then stripLit ps cs else none

/-- Match `/pre\s*(\d+)\s*post/` at the current position, returning the
captured number. -/
def matchNumBetweenAt (pre post : List Char) (l : List Char) : Option Nat :=
  (stripLit pre l).bind fun r1 =>
    (takeDigits1 (skipWs r1)).bind fun nr =>
      ((stripLit post (skipWs nr.2)).map fun _ => nr.1)

/-- Try a positional matcher at every position, leftmost first (the regex
engine's scan). -/
def scanFor {α : Type} (f : List Char → Option α) : List Char → Option α
  | [] => none
  | c :: rest =>
    match f (c :: rest) with
    | some v => some v
    | none => scanFor f rest

/-- Leftmost match of `/pre\s*(\d+)\s*post/` over the whole string. -/
def findNum (pre post : List Char) (l : List Char) : Option Nat :=
  scanFor (matchNumBetweenAt pre post) l

/-- Test a positional predicate at every position (regex `test`). -/
def scanTest (f : List Char → Bool) : List Char → Bool
  | [] => false
  | c :: rest => f (c :: rest) || scanTest f rest

/-- Match `/a\s*b/` at the current position. -/
def testSeqAt (a b : List Char) (l : List Char) : Bool :=
  match stripLit a l with
  | some r => (stripLit b (skipWs r)).isSome
  | none => false

/-- Test `/a\s*b/` anywhere in the string. -/
def testSeq (a b : List Char) (l : List Char) : Bool := scanTest (testSeqAt a b) l

/-- Is the next character (if any) outside `\w` (a `\b` boundary on the
right)? -/
def afterNotWord : List Char → Bool
  | [] => true
  | c :: _ => !isWordChar c

/-- Scan for `/\bw\b/`, tracking whether the previous character was a word
character. -/
def scanBoundary (w : List Char) : Bool → List Char → Bool
  | _, [] => false
  | prev, c :: rest =>
    (!prev && startsWithL w (c :: rest) && afterNotWord ((c :: rest).drop w.length)) ||
      scanBoundary w (isWordChar c) rest

/-- Test `/\bw\b/` anywhere in the string. -/
def hasWordToken (w : List Char) (l : List Char) : Bool := scanBoundary w false l

/-- Read exactly four digits (the `(\d{4})` year capture). -/
def take4Digits : List Char → Option (Nat × List Char)
  | a :: b :: c :: d :: rest =>
    if isDigitChar a && isDigitChar b && isDigitChar c && isDigitChar d then
      some (1000 * digitVal a + 100 * digitVal b + 10 * digitVal c + digitVal d, rest)
    else none
  | _ => none

/-- Read `(\d{1,2})` immediately followed by a separator character, with the
regex's backtracking (two digits preferred, one digit if the separator then
fails). -/
def take12DigitsSep (isSep : Char → Bool) : List Char → Option (Nat × List Char)
  | a :: b :: c :: rest =>
    if isDigitChar a && isDigitChar b && isSep c then
      some (10 * digitVal a + digitVal b, rest)
    else if isDigitChar a && isSep b then some (digitVal a, c :: rest)
    else none
  | [a, b] => if isDigitChar a && isSep b then some (digitVal a, []) else none
  | _ => none

/-- Read `(\d{1,2})` greedily with nothing required after it (the day
capture, whose `일?` suffix is optional). -/
def take12Digits : List Char → Option (Nat × List Char)
  | a :: b :: rest =>
    if isDigitChar a && isDigitChar b then some (10 * digitVal a + digitVal b, rest)
    else if isDigitChar a then some (digitVal a, b :: rest)
    else none
  | [a] => if isDigitChar a then some (digitVal a, []) else none
  | [] => none

/-- Match `/(\d{4})[-년]\s*(\d{1,2})[-월]\s*(\d{1,2})일?/` at the current
position. -/
def matchSpecificAt (l : List Char) : Option (Nat × Nat × Nat) :=
  (take4Digits l).bind fun (yr : Nat × List Char) =>
    (match yr.2 with
      | c :: rest => if c = '-' || c = '년' then some rest else none
      | [] => none).bind fun (r2 : List Char) =>
      (take12DigitsSep (fun c => c = '-' || c = '월') (skipWs r2)).bind
        fun (mr : Nat × List Char) =>
          (take12Digits (skipWs mr.2)).map fun (dr : Nat × List Char) => (yr.1, mr.1, dr.1)

/-- Leftmost match of the explicit calendar-date pattern. -/
def findSpecificDate (l : List Char) : Option (Nat × Nat × Nat) :=
  scanFor matchSpecificAt l

/-- A parsed date window; either bound may be an invalid date. -/
structure DateRange where
  startDate : Option Int
  endDate : Option Int
deriving DecidableEq, Repr

/-- Window "today minus k days .. today" (the day-count branches of
`parseDateRange`: the copied `today` has `setDate(getDate() - k)` applied). -/
def rangeDaysAgo (today : Option Int) (k : Int) : DateRange :=
  ⟨today.bind (fun t => jsSetDate t (jsGetDate t - k)), today⟩

/-- Window for a single day: today. -/
def rangeToday (today : Option Int) : DateRange := ⟨today, today⟩

/-- Window for a single day: yesterday (both bounds are the same value). -/
def rangeYesterday (today : Option Int) : DateRange :=
  ⟨today.bind (fun t => jsSetDate t (jsGetDate t - 1)),
    today.bind (fun t => jsSetDate t (jsGetDate t - 1))⟩

/-- Window "start of this week (Sunday) .. today". -/
def rangeThisWeek (today : Option Int) : DateRange :=
  ⟨today.bind (fun t => jsSetDate t (jsGetDate t - jsGetDay t)), today⟩

/-- Window "one month before today .. today" (`setMonth(getMonth() - 1)`). -/
def rangeLastMonth (today : Option Int) : DateRange :=
  ⟨today.bind (fun t => jsSetMonth t (jsGetMonth t - 1)), today⟩

/-- Window "first of the current month .. today". -/
def rangeThisMonth (today : Option Int) : DateRange :=
  ⟨today.bind (fun t => jsNewDateYMD (jsGetFullYear t) (jsGetMonth t) 1), today⟩

/-- Window for an explicit `(year, month, day)` date (month 1-based in the
query, passed 0-based to the constructor). -/
def rangeSpecific (y mo d : Nat) : DateRange :=
  ⟨jsNewDateYMD y ((mo : Int) - 1) d, jsNewDateYMD y ((mo : Int) - 1) d⟩

/-- The source's `parseDateRange(query)`: tries the Korean pattern table,
then the English one, then the explicit-date pattern, first match wins.
The impure `new Date()` is the explicit clock parameter `now`.  The source's
`getDates` closures re-run the very regex whose `test` just succeeded, so
pattern test and capture are merged here (the `days = match ? parseInt : 7`
fallback of the day-count branches is unreachable). -/
def parseDateRange (now : Int) (query : String) : Option DateRange :=
  match findNum "지난".data "일".data query.data with
  | some n => some (rangeDaysAgo (jsTodayFrom now) n)
  | none =>
  match findNum "최근".data "일".data query.data with
  | some n => some (rangeDaysAgo (jsTodayFrom now) n)
  | none =>
  if testSeq "지난".data "주".data query.data then some (rangeDaysAgo (jsTodayFrom now) 7)
  else if testSeq "이번".data "주".data query.data then some (rangeThisWeek (jsTodayFrom now))
  else if testSeq "지난".data "달".data query.data then some (rangeLastMonth (jsTodayFrom now))
  else if testSeq "이번".data "달".data query.data then some (rangeThisMonth (jsTodayFrom now))
  else if containsSub "요즘".data query.data || containsSub "최근에".data query.data then
    some (rangeDaysAgo (jsTodayFrom now) 7)
  else if containsSub "오늘".data query.data then some (rangeToday (jsTodayFrom now))
  else if containsSub "어제".data query.data then some (rangeYesterday (jsTodayFrom now))
  else
  match findNum "last".data "day".data (query.data.map jsToLowerChar) with
  | some n => some (rangeDaysAgo (jsTodayFrom now) n)
  | none =>
  match findNum "past".data "day".data (query.data.map jsToLowerChar) with
  | some n => some (rangeDaysAgo (jsTodayFrom now) n)
  | none =>
  if testSeq "last".data "week".data (query.data.map jsToLowerChar) then
    some (rangeDaysAgo (jsTodayFrom now) 7)
  else if testSeq "this".data "week".data (query.data.map jsToLowerChar) then
    some (rangeThisWeek (jsTodayFrom now))
  else if testSeq "last".data "month".data (query.data.map jsToLowerChar) then
    some (rangeLastMonth (jsTodayFrom now))
  else if testSeq "this".data "month".data (query.data.map jsToLowerChar) then
    some (rangeThisMonth (jsTodayFrom now))
  else if containsSub "recently".data (query.data.map jsToLowerChar) ||
      containsSub "lately".data (query.data.map jsToLowerChar) then
    some (rangeDaysAgo (jsTodayFrom now) 7)
  else if hasWordToken "today".data (query.data.map jsToLowerChar) then
    some (rangeToday (jsTodayFrom now))
  else if hasWordToken "yesterday".data (query.data.map jsToLowerChar) then
    some (rangeYesterday (jsTodayFrom now))
  else
  match findSpecificDate query.data with
  | some ymd => some (rangeSpecific ymd.1 ymd.2.1 ymd.2.2)
  | none => none

/-- Insert into a sorted list: `bef a b` means "a must come strictly before
b" (comparator returned a negative number).  Equal elements keep their
relative order, like `Array.prototype.sort` and SQL `ORDER BY`. -/
def insertBy {α : Type} (bef : α → α → Bool) (a : α) : List α → List α
  | [] => [a]
  | b :: l => if bef b a then b :: insertBy bef a l else a :: b :: l

/-- Stable comparator sort (insertion sort). -/
def sortBy {α : Type} (bef : α → α → Bool) : List α → List α
  | [] => []
  | a :: l => insertBy bef a (sortBy bef l)

/-- A row of the external `"Diary"` table. -/
structure Diary where
  diary_id : Int
  user_id : Int
  title : String
  content : String
  color : String
  date : Int
deriving DecidableEq, Repr

/-- A row of `diary_embeddings` (the stored vector; its length is validated
only on insertion, so the model leaves it arbitrary). -/
structure DiaryEmbeddingRow where
  diary_id : Int
  embedding : List Rat
deriving DecidableEq, Repr

/-- The persistent state visible to the vector-search queries. -/
structure VectorDB where
  diaries : List Diary
  diary_embeddings : List DiaryEmbeddingRow
deriving DecidableEq, Repr

/-- The transient per-query search result of `embedding.service.ts`. -/
structure DiarySearchResult where
  diary_id : Int
  title : String
  content : String
  date : Int
  color : String
  score : Rat
deriving DecidableEq, Repr

/-- Fixed embedding dimension of text-embedding-3-small. -/
def EMBEDDING_DIMENSION : Nat := 1536

/-- The SQL join `diary_embeddings de JOIN "Diary" d ON de.diary_id =
d.diary_id`. -/
def joinRows (db : VectorDB) : List (DiaryEmbeddingRow × Diary) :=
  db.diary_embeddings.flatMap fun de =>
    (db.diaries.filter (fun d => d.diary_id == de.diary_id)).map (fun d => (de, d))

/-- Shared part of both search queries: filter by a row predicate, order by
cosine distance to the query embedding ascending (ties arbitrary; the model
commits to a stable sort), apply `LIMIT topK`, and project each row to a
`DiarySearchResult` with `score = 1 - distance`. -/
def runSearchQuery (dist : List Rat → List Rat → Rat) (queryEmbedding : List Rat)
    (rows : List (DiaryEmbeddingRow × Diary)) (topK : Int) : List DiarySearchResult :=
  ((sortBy (fun r s =>
      decide (dist r.1.embedding queryEmbedding < dist s.1.embedding queryEmbedding))
      rows).take topK.toNat).map fun r =>
    ⟨r.2.diary_id, r.2.title, r.2.content, r.2.date, r.2.color,
      1 - dist r.1.embedding queryEmbedding⟩

/-- `searchSimilarDiaries` of `embedding.service.ts`: dimension and topK
validation, then the owner-scoped pgvector query.  The impure pieces are
explicit: `dist` is the `<=>` cosine-distance operator, `db` the database
state. -/
def searchSimilarDiaries (dist : List Rat → List Rat → Rat) (db : VectorDB) (userId : Int)
    (queryEmbedding : List Rat) (topK : Int) : Except String (List DiarySearchResult) :=
  if queryEmbedding.length ≠ EMBEDDING_DIMENSION then
    Except.error "Invalid query embedding dimension"
  else if topK < 1 then Except.error "topK must be at least 1"
  else
    Except.ok (runSearchQuery dist queryEmbedding
      ((joinRows db).filter (fun r => r.2.user_id == userId)) topK)

/-- `searchDiariesWithDateFilter` of `rag.service.ts`: without a range it
delegates to `searchSimilarDiaries`; with one it runs the same query further
restricted to `startDate ≤ d.date ≤ endOfDay(endDate)` and performs no
input validation.  The range carries valid date values (Prisma would reject
an invalid `Date` before the query runs). -/
def searchDiariesWithDateFilter (dist : List Rat → List Rat → Rat) (db : VectorDB)
    (userId : Int) (queryEmbedding : List Rat) (topK : Int)
    (dateRange : Option (Int × Int)) : Except String (List DiarySearchResult) :=
  match dateRange with
  | none => searchSimilarDiaries dist db userId queryEmbedding topK
  | some se =>
    Except.ok (runSearchQuery dist queryEmbedding
      ((joinRows db).filter (fun r =>
        r.2.user_id == userId && decide (se.1 ≤ r.2.date) &&
          decide (r.2.date ≤ jsEndOfDay se.2))) topK)

/-- A row of the `semantic_cache` table. -/
structure SemanticCacheRow where
  id : Int
  user_id : Int
  query : String
  response : String
  diary_ids : List Int
  query_embedding : List Rat
  created_at : Int
deriving DecidableEq, Repr

/-- The `CacheEntry` interface of `semantic-cache.service.ts`. -/
structure CacheEntry where
  id : Int
  userId : Int
  queryHash : String
  query : String
  response : String
  diaryIds : List Int
  similarity : Rat
  createdAt : Int
deriving DecidableEq, Repr

/-- The `CacheResult` interface of `semantic-cache.service.ts`. -/
structure CacheResult where
  hit : Bool
  entry : Option CacheEntry
  response : Option String
  diaryIds : Option (List Int)
deriving DecidableEq, Repr

/-- 92% similarity required for a cache hit. -/
def SIMILARITY_THRESHOLD : Rat := 92 / 100

/-- Cache entries expire after 24 hours. -/
def CACHE_TTL_HOURS : Int := 24

/-- `searchCache` of `semantic-cache.service.ts` with the embedding already
computed (the optional-embedding path only adds the provider call).  The
TTL cutoff `setHours(getHours() - 24)` subtracts exactly 24 hours.  The SQL
filters the caller's rows with the same owner, age strictly below the TTL
and similarity at least the threshold, orders by distance ascending and
takes one row. -/
def searchCache (dist : List Rat → List Rat → Rat) (rows : List SemanticCacheRow)
    (now : Int) (userId : Int) (queryEmbedding : List Rat) : CacheResult :=
  let ttlCutoff := now - CACHE_TTL_HOURS * 3600000
  let qualifying := rows.filter (fun r =>
    r.user_id == userId && decide (ttlCutoff < r.created_at) &&
      decide (SIMILARITY_THRESHOLD ≤ 1 - dist r.query_embedding queryEmbedding))
  match (sortBy (fun r s =>
      decide (dist r.query_embedding queryEmbedding < dist s.query_embedding queryEmbedding))
      qualifying).take 1 with
  | [] => ⟨false, none, none, none⟩
  | cached :: _ =>
    ⟨true,
      some ⟨cached.id, cached.user_id, "", cached.query, cached.response, cached.diary_ids,
        1 - dist cached.query_embedding queryEmbedding, cached.created_at⟩,
      some cached.response, some cached.diary_ids⟩

/-- A row of `chat_messages` (fields the summarization path reads). -/
structure ChatMessage where
  message_id : String
  role : String
  content : String
  created_at : Int
deriving DecidableEq, Repr

/-- A chat session's summarization-relevant state: its nullable `summary`
column and its stored messages. -/
structure SessionState where
  summary : Option String
  messages : List ChatMessage
deriving DecidableEq, Repr

/-- Summarization threshold of `session.service.ts`. -/
def SUMMARIZATION_THRESHOLD : Nat := 10

/-- Korean role label used when formatting the conversation for the
summarizer. -/
def roleLabel (role : String) : String :=
  if role = "user" then "사용자" else if role = "assistant" then "무디타" else "시스템"

/-- The conversation text sent to the summarization model. -/
def conversationText (msgs : List ChatMessage) : String :=
  String.intercalate "\n" (msgs.map (fun m => roleLabel m.role ++ ": " ++ m.content))

/-- `summarizeOldMessages` of `session.service.ts`.  The summarization LLM is
the oracle `llm` (the `response.choices[0]?.message?.content || ''` value for
a given conversation text).  Messages are fetched ordered by `created_at`
ascending, all but the 5 most recent are summarized, the summary is persisted
and the summarized messages deleted. -/
def summarizeOldMessages (llm : String → String) (st : SessionState) :
    Option String × SessionState :=
  let messageCount := st.messages.length
  if messageCount ≤ SUMMARIZATION_THRESHOLD then (none, st)
  else
    let sorted := sortBy (fun a b => decide (a.created_at < b.created_at)) st.messages
    let messagesToSummarize := sorted.take (messageCount - 5)
    if messagesToSummarize.isEmpty then (none, st)
    else
      let summary := llm (conversationText messagesToSummarize)
      let idsToDelete := messagesToSummarize.map (fun m => m.message_id)
      (some summary,
        ⟨some summary, st.messages.filter (fun m => !(idsToDelete.contains m.message_id))⟩)

/-- `needsSummarization` of `session.service.ts`. -/
def needsSummarization (st : SessionState) : Bool :=
  SUMMARIZATION_THRESHOLD < st.messages.length

/-- Entity types extractable from diary content. -/
inductive EntityType where
  | activity
  | person
  | place
deriving DecidableEq, Repr

/-- Common activity keywords (Korean), in the source's set-literal order. -/
def ACTIVITY_KEYWORDS : List String :=
  ["운동", "산책", "조깅", "달리기", "수영", "헬스", "요가", "필라테스", "등산",
   "독서", "책", "영화", "드라마", "음악", "노래", "춤", "그림", "그리기",
   "요리", "베이킹", "청소", "정리", "빨래", "설거지",
   "공부", "학습", "강의", "수업", "시험", "과제",
   "게임", "쇼핑", "여행", "캠핑", "피크닉", "드라이브",
   "명상", "휴식", "낮잠", "수면", "잠",
   "카페", "커피", "차", "맥주", "술", "식사", "밥", "점심", "저녁", "아침",
   "미팅", "회의", "발표", "프로젝트", "업무", "일",
   "데이트", "약속", "모임", "파티", "생일",
   "병원", "치료", "검진", "약",
   "글쓰기", "일기", "블로그", "사진", "촬영"]

/-- Common relationship/person keywords (Korean). -/
def PERSON_KEYWORDS : List String :=
  ["친구", "가족", "부모님", "엄마", "아빠", "어머니", "아버지",
   "형", "오빠", "누나", "언니", "동생", "남동생", "여동생",
   "할머니", "할아버지", "조부모", "삼촌", "이모", "고모", "외삼촌",
   "남편", "아내", "배우자", "애인", "여자친구", "남자친구", "연인",
   "아들", "딸", "자녀", "아이", "아기",
   "동료", "상사", "부하", "팀장", "사장", "대표", "선배", "후배",
   "선생님", "교수님", "강사", "학생", "제자",
   "이웃", "주민"]

/-- Common place keywords (Korean). -/
def PLACE_KEYWORDS : List String :=
  ["집", "회사", "사무실", "학교", "대학", "학원",
   "카페", "커피숍", "식당", "레스토랑", "맛집", "술집", "바",
   "공원", "산", "바다", "해변", "강", "호수", "숲",
   "병원", "약국", "은행", "마트", "슈퍼", "백화점", "쇼핑몰",
   "헬스장", "체육관", "수영장", "운동장", "경기장",
   "도서관", "서점", "미술관", "박물관", "영화관", "극장", "공연장",
   "역", "버스정류장", "공항", "터미널",
   "호텔", "펜션", "숙소", "리조트",
   "교회", "절", "성당"]

/-- Korean stop words excluded from theme extraction (source order, with its
duplicates kept; only membership matters). -/
def KOREAN_STOP_WORDS : List String :=
  ["그", "저", "이", "것", "수", "등", "때", "더", "안", "못", "잘", "좀",
   "너무", "정말", "진짜", "아주", "매우", "조금", "많이", "다시", "또",
   "오늘", "어제", "내일", "지금", "항상", "가끔", "자주", "계속",
   "나", "내", "저", "제", "우리", "그녀", "그", "그들",
   "하다", "되다", "있다", "없다", "같다", "보다", "가다", "오다", "주다", "받다",
   "하고", "하면", "해서", "했다", "한다", "할", "하는", "했는데",
   "그리고", "그래서", "하지만", "그런데", "그러나", "또한", "그래도",
   "이런", "저런", "그런", "어떤", "무슨", "왜", "어떻게",
   "아", "어", "음", "응", "네", "예", "아니", "아니요"]

/-- An extracted entity (`ExtractedEntity` of `rag.service.ts`); `diaryIds`
and `moodColors` are JS `Set`s, modelled as insertion-ordered duplicate-free
lists. -/
structure ExtractedEntity where
  type : EntityType
  value : String
  frequency : Nat
  diaryIds : List Int
  moodColors : List String
deriving DecidableEq, Repr

/-- Add to a JS `Set` (append if absent). -/
def addUnique {α : Type} [BEq α] (l : List α) (a : α) : List α :=
  if l.contains a then l else l ++ [a]

/-- The source's `updateEntityMap` helper: in-place update of the
insertion-ordered entity map, frequency counted once per diary, mood color
always added. -/
def updateEntityMap (m : List ExtractedEntity) (value : String) (ty : EntityType)
    (diaryId : Int) (color : String) : List ExtractedEntity :=
  match m with
  | [] => [⟨ty, value, 1, [diaryId], [color]⟩]
  | e :: rest =>
    if e.value == value then
      (if e.diaryIds.contains diaryId then
        { e with moodColors := addUnique e.moodColors color }
      else
        { e with frequency := e.frequency + 1, diaryIds := e.diaryIds ++ [diaryId],
                 moodColors := addUnique e.moodColors color }) :: rest
    else e :: updateEntityMap rest value ty diaryId color

/-- `String.prototype.split(/\s+/)` worker: splits at maximal whitespace
runs, keeping the empty fragments JavaScript produces at the two ends. -/
def splitWsGo : List Char → List Char → Bool → List (List Char)
  | [], cur, _ => [cur.reverse]
  | c :: rest, cur, inRun =>
    if isWsChar c then
      (if inRun then splitWsGo rest cur true else cur.reverse :: splitWsGo rest [] true)
    else
      (if inRun then splitWsGo rest [c] false else splitWsGo rest (c :: cur) false)

/-- `String.prototype.split(/\s+/)`. -/
def splitWs (l : List Char) : List (List Char) := splitWsGo l [] false

/-- `word.replace(/[^\w가-힣]/g, '')`. -/
def cleanWordChars (w : List Char) : List Char :=
  w.filter (fun c => isWordChar c || isHangulChar c)

/-- The word-path keyword lookup of `extractEntities`: activity, else
person, else place. -/
def classifyCleanWord (cw : String) : Option EntityType :=
  if ACTIVITY_KEYWORDS.contains cw then some EntityType.activity
  else if PERSON_KEYWORDS.contains cw then some EntityType.person
  else if PLACE_KEYWORDS.contains cw then some EntityType.place
  else none

/-- One diary's contribution to the entity map: the per-word pass over the
whitespace-split lowercased content, then the three substring passes over
the keyword vocabularies. -/
def processDiaryEntities (m : List ExtractedEntity) (diary : DiarySearchResult) :
    List ExtractedEntity :=
  let contentL := diary.content.data.map jsToLowerChar
  let m1 := (splitWs contentL).foldl (fun acc w =>
    let cw := String.mk (cleanWordChars w)
    match classifyCleanWord cw with
    | some ty => updateEntityMap acc cw ty diary.diary_id diary.color
    | none => acc) m
  let m2 := ACTIVITY_KEYWORDS.foldl (fun acc kw =>
    if containsSub kw.data contentL then
      updateEntityMap acc kw EntityType.activity diary.diary_id diary.color
    else acc) m1
  let m3 := PERSON_KEYWORDS.foldl (fun acc kw =>
    if containsSub kw.data contentL then
      updateEntityMap acc kw EntityType.person diary.diary_id diary.color
    else acc) m2
  PLACE_KEYWORDS.foldl (fun acc kw =>
    if containsSub kw.data contentL then
      updateEntityMap acc kw EntityType.place diary.diary_id diary.color
    else acc) m3

/-- `extractEntities` of `rag.service.ts`: fold the diaries through the
entity map, then sort by frequency descending (stable). -/
def extractEntities (diaries : List DiarySearchResult) : List ExtractedEntity :=
  if diaries.isEmpty then []
  else sortBy (fun a b => decide (b.frequency < a.frequency))
    (diaries.foldl processDiaryEntities [])

/-- A personalized suggestion (`PersonalizedSuggestion` of `rag.service.ts`). -/
structure PersonalizedSuggestion where
  suggestion : String
  basedOn : List ExtractedEntity
  diaryIds : List Int
  moodContext : String
deriving DecidableEq, Repr

/-- The suggestion template table, keyed by entity type and mood context
('positive' / 'negative'). -/
def suggestionTemplates (ty : EntityType) (moodContext : String) : List String :=
  match ty with
  | EntityType.activity =>
    if moodContext = "positive" then
      ["{entity}을(를) 하면서 좋은 시간을 보냈던 것 같아. 다시 해보는 건 어때?",
       "전에 {entity} 했을 때 기분이 좋았잖아. 오늘도 한번 해볼까?",
       "{entity}이(가) 너한테 잘 맞는 것 같아. 꾸준히 해보면 좋겠다!"]
    else
      ["힘들 때 {entity}을(를) 해보는 건 어때? 기분 전환이 될 수도 있어.",
       "전에 {entity} 하고 나서 기분이 나아졌던 적 있잖아.",
       "잠깐 {entity}을(를) 하면서 머리 좀 식혀보는 건 어떨까?"]
  | EntityType.person =>
    if moodContext = "positive" then
      ["{entity}와(과) 함께한 시간이 즐거웠던 것 같아. 연락해보는 건 어때?",
       "{entity}이(가) 너한테 좋은 영향을 주는 것 같아. 자주 만나면 좋겠다!",
       "{entity}와(과) 또 좋은 시간 보내면 좋겠다."]
    else
      ["{entity}한테 연락해보는 건 어때? 이야기 나누면 기분이 나아질 수도 있어.",
       "힘들 때 {entity}와(과) 대화해보면 도움이 될 것 같아.",
       "{entity}이(가) 네 이야기를 들어줄 수 있을 것 같아."]
  | EntityType.place =>
    if moodContext = "positive" then
      ["{entity}에 가면 기분이 좋아지는 것 같아. 다시 가보는 건 어때?",
       "전에 {entity}에서 좋은 시간 보냈잖아. 또 가볼까?",
       "{entity}이(가) 너한테 좋은 장소인 것 같아."]
    else
      ["기분 전환으로 {entity}에 가보는 건 어때?",
       "{entity}에 가서 잠깐 쉬어보는 것도 좋을 것 같아.",
       "환경을 바꿔서 {entity}에 가보면 기분이 나아질 수도 있어."]

/-- `getMoodContext`: positive wins ties. -/
def getMoodContext (moodColors : List String) : String :=
  let positiveCount := (moodColors.filter (fun c => c == "초록색" || c == "노란색")).length
  let negativeCount := (moodColors.filter (fun c => c == "빨간색" || c == "파란색")).length
  if negativeCount ≤ positiveCount then "positive" else "negative"

/-- `String.prototype.replace` with a plain string pattern: replace the first
occurrence only (entity values contain no `$` patterns). -/
def replaceFirstL (pat val : List Char) : List Char → List Char
  | [] => if startsWithL pat [] then val else []
  | c :: rest =>
    if startsWithL pat (c :: rest) then val ++ (c :: rest).drop pat.length
    else c :: replaceFirstL pat val rest

/-- The suggestion loop of `generatePersonalizedSuggestions`: walk the sorted
entities, skip used values, rotate templates by the number of suggestions so
far, stop at the maximum. -/
def buildSuggestions (isNegativeMood : Bool) (maxSuggestions : Nat) :
    List ExtractedEntity → List String → List PersonalizedSuggestion →
      List PersonalizedSuggestion
  | [], _, acc => acc
  | entity :: rest, used, acc =>
    if maxSuggestions ≤ acc.length then acc
    else if used.contains entity.value then
      buildSuggestions isNegativeMood maxSuggestions rest used acc
    else
      let moodContext :=
        if isNegativeMood then "negative" else getMoodContext entity.moodColors
      let templateList := suggestionTemplates entity.type moodContext
      let template := templateList.getD (acc.length % templateList.length) ""
      let suggestionText :=
        String.mk (replaceFirstL "{entity}".data entity.value.data template.data)
      buildSuggestions isNegativeMood maxSuggestions rest (used ++ [entity.value])
        (acc ++ [⟨suggestionText, [entity], entity.diaryIds, moodContext⟩])

/-- `generatePersonalizedSuggestions` of `rag.service.ts`. -/
def generatePersonalizedSuggestions (diaries : List DiarySearchResult)
    (currentMood : Option String) (maxSuggestions : Nat) : List PersonalizedSuggestion :=
  if diaries.isEmpty then []
  else
    let entities := extractEntities diaries
    if entities.isEmpty then []
    else
      let isNegativeMood := currentMood == some "빨간색" || currentMood == some "파란색"
      let sortedEntities := sortBy (fun a b =>
        if isNegativeMood then
          let aPositive := (a.moodColors.filter (fun c => c == "초록색" || c == "노란색")).length
          let bPositive := (b.moodColors.filter (fun c => c == "초록색" || c == "노란색")).length
          if aPositive ≠ bPositive then decide (bPositive < aPositive)
          else decide (b.frequency < a.frequency)
        else decide (b.frequency < a.frequency)) entities
      buildSuggestions isNegativeMood maxSuggestions sortedEntities [] []

/-- `isPersonalizedSuggestion` of `rag.service.ts`: at least one basis entity
occurs (case-folded) in some diary's content. -/
def isPersonalizedSuggestion (s : PersonalizedSuggestion)
    (diaries : List DiarySearchResult) : Bool :=
  !s.basedOn.isEmpty &&
    s.basedOn.any fun e =>
      diaries.any fun d =>
        containsSub (e.value.data.map jsToLowerChar) (d.content.data.map jsToLowerChar)

/-- A recurring theme (`RecurringTheme` of `rag.service.ts`). -/
structure RecurringTheme where
  theme : String
  frequency : Nat
  diaryIds : List Int
  examples : List String
deriving DecidableEq, Repr

/-- `extractKeywords`: replace characters outside `[\w\s가-힣]` by spaces,
split on whitespace, keep words of length ≥ 2 lowercased, and drop stop
words and all-digit tokens. -/
def extractKeywords (content : String) : List String :=
  let replaced := content.data.map fun c =>
    if isWordChar c || isWsChar c || isHangulChar c then c else ' '
  let words := ((splitWs replaced).filter (fun w => 2 ≤ w.length)).map
    (fun w => String.mk (w.map jsToLowerChar))
  words.filter fun w =>
    !(KOREAN_STOP_WORDS.contains w) && 2 ≤ w.data.length && !(w.data.all isDigitChar)

/-- Index of the first occurrence of a pattern (`String.prototype.indexOf`). -/
def indexOfSubAux (pat : List Char) : List Char → Nat → Option Nat
  | [], i => if startsWithL pat [] then some i else none
  | c :: rest, i =>
    if startsWithL pat (c :: rest) then some i else indexOfSubAux pat rest (i + 1)

/-- Index of the first occurrence of a pattern, or `none`. -/
def indexOfSub (pat l : List Char) : Option Nat := indexOfSubAux pat l 0

/-- `String.prototype.trim` (over the modelled whitespace set). -/
def jsTrim (l : List Char) : List Char :=
  ((l.dropWhile (fun c => isWsChar c)).reverse.dropWhile (fun c => isWsChar c)).reverse

/-- `extractExcerpt`: a trimmed window of 30 characters before and 70 after
the first (case-folded) occurrence of the word, with ellipses at cut ends. -/
def extractExcerpt (content word : String) : Option String :=
  let lowerContent := content.data.map jsToLowerChar
  match indexOfSub (word.data.map jsToLowerChar) lowerContent with
  | none => none
  | some index =>
    let start := index - 30
    let stop := min content.data.length (index + word.data.length + 70)
    let excerpt := jsTrim ((content.data.drop start).take (stop - start))
    let excerpt2 := if 0 < start then "...".data ++ excerpt else excerpt
    let excerpt3 := if stop < content.data.length then excerpt2 ++ "...".data else excerpt2
    some (String.mk excerpt3)

/-- Update the word-to-diaries/examples accumulator of
`identifyRecurringThemes` (a JS `Map` of `Set`s, insertion-ordered). -/
def themeUpd (acc : List (String × List Int × List String)) (word : String)
    (diary : DiarySearchResult) : List (String × List Int × List String) :=
  match acc with
  | [] =>
    [(word, [diary.diary_id],
      match extractExcerpt diary.content word with
      | some e => [e]
      | none => [])]
  | (w, ids, exs) :: rest =>
    if w == word then
      (w, addUnique ids diary.diary_id,
        if exs.length < 3 then
          (match extractExcerpt diary.content word with
            | some e => exs ++ [e]
            | none => exs)
        else exs) :: rest
    else (w, ids, exs) :: themeUpd rest word diary

/-- One diary's pass of `identifyRecurringThemes`: each keyword counted once
per diary via the `seenInThisDiary` set. -/
def processThemesForDiary (acc : List (String × List Int × List String))
    (diary : DiarySearchResult) : List (String × List Int × List String) :=
  ((extractKeywords diary.content).foldl
    (fun (p : List (String × List Int × List String) × List String) kw =>
      if p.2.contains kw then p else (themeUpd p.1 kw diary, p.2 ++ [kw]))
    (acc, [])).1

/-- `identifyRecurringThemes` of `rag.service.ts`; ties in the final sort are
broken by `localeCompare`, modelled as code-point order. -/
def identifyRecurringThemes (diaries : List DiarySearchResult) (minFrequency : Nat) :
    List RecurringTheme :=
  if diaries.isEmpty then []
  else
    let entries := diaries.foldl processThemesForDiary []
    let themes := (entries.filter (fun e => minFrequency ≤ e.2.1.length)).map
      (fun e => RecurringTheme.mk e.1 e.2.1.length e.2.1 e.2.2)
    sortBy (fun a b =>
      if a.frequency ≠ b.frequency then decide (b.frequency < a.frequency)
      else decide (a.theme < b.theme)) themes

/-- A diary example attached to a trigger group (`DiaryExample`). -/
structure DiaryExample where
  diary_id : Int
  title : String
  date : Int
  excerpt : String
deriving DecidableEq, Repr

/-- An emotion-trigger group (`EmotionTrigger` of `rag.service.ts`). -/
structure EmotionTrigger where
  moodColor : String
  triggers : List String
  diaryIds : List Int
  examples : List DiaryExample
deriving DecidableEq, Repr

/-- The grouping key `diary.color || '알 수 없음'` (the empty string is the
only falsy string). -/
def groupColorKey (d : DiarySearchResult) : String :=
  if d.color = "" then "알 수 없음" else d.color

/-- Append a diary to its color bucket (insertion-ordered JS `Map`). -/
def groupUpd (acc : List (String × List DiarySearchResult)) (d : DiarySearchResult) :
    List (String × List DiarySearchResult) :=
  match acc with
  | [] => [(groupColorKey d, [d])]
  | (c, ds) :: rest =>
    if c == groupColorKey d then (c, ds ++ [d]) :: rest else (c, ds) :: groupUpd rest d

/-- The first-100-characters excerpt of a trigger example. -/
def mkDiaryExample (d : DiarySearchResult) : DiaryExample :=
  ⟨d.diary_id, d.title, d.date,
    String.mk (d.content.data.take 100 ++
      (if 100 < d.content.data.length then "...".data else []))⟩

/-- `extractEmotionTriggers` of `rag.service.ts`: group diaries by mood
color, per group take the top-5 within-group themes, all the group's diary
ids and up to 3 examples, then sort groups by size descending. -/
def extractEmotionTriggers (diaries : List DiarySearchResult) : List EmotionTrigger :=
  if diaries.isEmpty then []
  else
    let byColor := diaries.foldl groupUpd []
    let triggers := byColor.map fun g =>
      EmotionTrigger.mk g.1 (((identifyRecurringThemes g.2 1).take 5).map (fun t => t.theme))
        (g.2.map (fun d => d.diary_id)) ((g.2.take 3).map mkDiaryExample)
    sortBy (fun a b => decide (b.diaryIds.length < a.diaryIds.length)) triggers

/-- A server-sent event written by `sendMessage` of `chatController.ts`. -/
inductive SSEEvent where
  | sessionEv (sessionId : String)
  | tokenEv (tok : String)
  | doneEv (diaryIds : List Int) (action : Option String)
  | errorEv (message : String) (partialContent : Option String)
deriving DecidableEq, Repr

/-- The observable outcome of the `generateRAGResponse` call: the token
fragments it delivered to `onToken` in order, and either its return value
or the error it threw after the delivered fragments. -/
inductive GenOutcome where
  | success (tokens : List String) (response : String) (diaryIds : List Int)
      (action : Option String)
  | failure (tokens : List String) (errMsg : String)
deriving DecidableEq, Repr

/-- Fallback streamed when the sanitized response is blank (Requirement 9.5
of the source). -/
def DEFAULT_SUPPORTIVE_MESSAGE : String :=
  "지금은 적절한 답변을 드리기 어려워요. 잠시 후 다시 시도해주세요. 💜"

/-- The controller's blank test `!fullResponse || fullResponse.trim().length
=== 0`. -/
def isBlankJs (s : String) : Bool := s.data.all isWsChar

/-- `String.prototype.trim` on a `String`. -/
def jsTrimString (s : String) : String := String.mk (jsTrim s.data)

/-- `sanitizeOutput` of `guardrail.service.ts` restricted to strings
containing none of the leak markers it filters ([INST] blocks, im_start
blocks, system fences, SQL fragments): on such strings its four regex
replacements are the identity and only the final `.trim()` applies. -/
def sanitizeOutputPlain (s : String) : String := jsTrimString s

/-- The SSE trace of the guardrail-passing path of `sendMessage` for a
request with no client disconnect and no persistence failure, given the
generation outcome; `san` abstracts `sanitizeOutput`, which the trace
depends on only through blankness of its value.  The controller emits the
`session` event, one `token` event per delivered fragment, the
supportive-fallback characters as extra `token` events when the sanitized
response is blank, and one terminal `done`/`error` event. -/
def sendMessageEvents (san : String → String) (sessionId : String)
    (outcome : GenOutcome) : List SSEEvent :=
  SSEEvent.sessionEv sessionId ::
    match outcome with
    | GenOutcome.success tokens response diaryIds action =>
      let fullResponse := san response
      tokens.map SSEEvent.tokenEv ++
        (if isBlankJs fullResponse then
          DEFAULT_SUPPORTIVE_MESSAGE.data.map (fun c => SSEEvent.tokenEv (String.mk [c]))
        else []) ++ [SSEEvent.doneEv diaryIds action]
    | GenOutcome.failure tokens errMsg =>
      tokens.map SSEEvent.tokenEv ++ [SSEEvent.errorEv errMsg none]

/-- Is the event a `token` event? -/
def isTokenEv : SSEEvent → Bool
  | SSEEvent.tokenEv _ => true
  | _ => false

/-- Is the event terminal (`done` or `error`)? -/
def isTerminalEv : SSEEvent → Bool
  | SSEEvent.doneEv _ _ => true
  | SSEEvent.errorEv _ _ => true
  | _ => false

/-- The JS `<=` comparison on two `Date` values: comparing an Invalid Date
(NaN time value) with anything is false. -/
def jsDateLe : Option Int → Option Int → Bool
  | some a, some b => decide (a ≤ b)
  | _, _ => false

theorem DayFromYear_approx (y : Int) :
    146097 * (y - 1970) - 2000 ≤ 400 * DayFromYear y ∧
      400 * DayFromYear y ≤ 146097 * (y - 1970) + 2000 := by
  unfold DayFromYear
  omega

theorem YearFromDay_correct (d : Int) :
    DayFromYear (YearFromDay d) ≤ d ∧ d < DayFromYear (YearFromDay d + 1) := by
  have hc : 146097 * (400 * d / 146097) ≤ 400 * d ∧
      400 * d < 146097 * (400 * d / 146097) + 146097 := by omega
  have h0 := DayFromYear_approx (1970 + 400 * d / 146097 - 1)
  have h1 := DayFromYear_approx (1970 + 400 * d / 146097)
  have h2 := DayFromYear_approx (1970 + 400 * d / 146097 + 1)
  have h3 := DayFromYear_approx (1970 + 400 * d / 146097 + 2)
  have h4 := DayFromYear_approx (1970 + 400 * d / 146097 + 3)
  have b1 : DayFromYear (1970 + 400 * d / 146097 + 1 + 1) =
      DayFromYear (1970 + 400 * d / 146097 + 2) := congrArg DayFromYear (by ring)
  have b2 : DayFromYear (1970 + 400 * d / 146097 + 2 + 1) =
      DayFromYear (1970 + 400 * d / 146097 + 3) := congrArg DayFromYear (by ring)
  have b3 : DayFromYear (1970 + 400 * d / 146097 - 1 + 1) =
      DayFromYear (1970 + 400 * d / 146097) := congrArg DayFromYear (by ring)
  unfold YearFromDay
  split_ifs <;> omega

theorem YearFromDay_unique (v y : Int) (h1 : DayFromYear y ≤ v)
    (h2 : v < DayFromYear (y + 1)) : YearFromDay v = y := by
  have hc := YearFromDay_correct v
  have ha1 := DayFromYear_approx y
  have ha2 := DayFromYear_approx (y + 1)
  have ha3 := DayFromYear_approx (YearFromDay v)
  have ha4 := DayFromYear_approx (YearFromDay v + 1)
  have hwin : YearFromDay v = y - 1 ∨ YearFromDay v = y ∨ YearFromDay v = y + 1 := by omega
  rcases hwin with hw | hw | hw
  · have hb : DayFromYear (y - 1 + 1) = DayFromYear y := congrArg DayFromYear (by ring)
    rw [hw, hb] at hc
    omega
  · exact hw
  · rw [hw] at hc
    omega

theorem InLeapYear_cases (y : Int) :
    (InLeapYear y = 1 ∧ (y % 4 = 0 ∧ (y % 100 ≠ 0 ∨ y % 400 = 0))) ∨
      (InLeapYear y = 0 ∧ ¬(y % 4 = 0 ∧ (y % 100 ≠ 0 ∨ y % 400 = 0))) := by
  unfold InLeapYear
  split_ifs with h
  · simp only [Bool.and_eq_true, Bool.or_eq_true, bne_iff_ne, decide_eq_true_eq, ne_eq] at h
    exact Or.inl ⟨rfl, h⟩
  · simp only [Bool.and_eq_true, Bool.or_eq_true, bne_iff_ne, decide_eq_true_eq, ne_eq] at h
    exact Or.inr ⟨rfl, h⟩

theorem DayFromYear_succ (y : Int) :
    DayFromYear (y + 1) = DayFromYear y + 365 + InLeapYear y := by
  rcases InLeapYear_cases y with ⟨h1, h2⟩ | ⟨h1, h2⟩ <;> rw [h1] <;> unfold DayFromYear <;> omega

theorem InLeapYear_bounds (y : Int) : 0 ≤ InLeapYear y ∧ InLeapYear y ≤ 1 := by
  rcases InLeapYear_cases y with ⟨h1, _⟩ | ⟨h1, _⟩ <;> rw [h1] <;> omega

theorem dwy_bounds (d : Int) :
    0 ≤ dayWithinYear d ∧ dayWithinYear d < 365 + InLeapYear (YearFromDay d) := by
  have h := YearFromDay_correct d
  have h2 := DayFromYear_succ (YearFromDay d)
  unfold dayWithinYear
  omega

theorem monthFromDwy_char (dwy L : Int) (hL : 0 ≤ L ∧ L ≤ 1) (h0 : 0 ≤ dwy)
    (h1 : dwy < 365 + L) :
    monthStartDay (monthFromDwy dwy L) L ≤ dwy ∧
      dwy < monthStartDay (monthFromDwy dwy L + 1) L ∧
      0 ≤ monthFromDwy dwy L ∧ monthFromDwy dwy L ≤ 11 := by
  obtain ⟨k, hk⟩ : ∃ k : Int, monthFromDwy dwy L = k := ⟨_, rfl⟩
  rw [hk]
  unfold monthFromDwy at hk
  unfold monthStartDay
  split_ifs at hk ⊢ <;> omega

theorem month_char (d : Int) :
    monthStartDay (jsMonthOfDay d) (InLeapYear (YearFromDay d)) ≤ dayWithinYear d ∧
      dayWithinYear d <
        monthStartDay (jsMonthOfDay d + 1) (InLeapYear (YearFromDay d)) ∧
      0 ≤ jsMonthOfDay d ∧ jsMonthOfDay d ≤ 11 := by
  have hb := dwy_bounds d
  have hL := InLeapYear_bounds (YearFromDay d)
  exact monthFromDwy_char _ _ hL hb.1 hb.2

theorem makeDay_roundtrip (d : Int) :
    jsMakeDay (YearFromDay d) (jsMonthOfDay d) (jsDateOfDay d) = d := by
  have hm := month_char d
  have hy := YearFromDay_correct d
  have h12 : jsMonthOfDay d / 12 = 0 := by omega
  have h12' : jsMonthOfDay d % 12 = jsMonthOfDay d := by omega
  unfold jsMakeDay jsDateOfDay dayWithinYear at *
  rw [h12, h12', add_zero]
  omega

theorem monthStartDay_gap (m L : Int) (hL : 0 ≤ L ∧ L ≤ 1) (h0 : 0 ≤ m) (h1 : m ≤ 11) :
    monthStartDay (m + 1) L - monthStartDay m L ≤ 31 := by
  unfold monthStartDay
  split_ifs <;> omega

theorem date_bounds (d : Int) : 1 ≤ jsDateOfDay d ∧ jsDateOfDay d ≤ 31 := by
  have hm := month_char d
  have hL := InLeapYear_bounds (YearFromDay d)
  have hg := monthStartDay_gap (jsMonthOfDay d) (InLeapYear (YearFromDay d)) hL
    hm.2.2.1 hm.2.2.2
  unfold jsDateOfDay
  omega

theorem jsMakeDay_firstOfMonth_le (d : Int) :
    jsMakeDay (YearFromDay d) (jsMonthOfDay d) 1 ≤ d := by
  have hrt := makeDay_roundtrip d
  have hdt := date_bounds d
  unfold jsMakeDay at *
  omega

theorem monthStartDay_mono_pred (m L : Int) (hL : 0 ≤ L ∧ L ≤ 1) (h0 : 1 ≤ m) (h1 : m ≤ 11) :
    monthStartDay (m - 1) L ≤ monthStartDay m L := by
  unfold monthStartDay
  split_ifs <;> omega

theorem monthStartDay_dec_bound (L : Int) (hL : 0 ≤ L ∧ L ≤ 1) :
    monthStartDay 11 L ≤ 335 := by
  unfold monthStartDay
  norm_num
  omega

theorem jsMakeDay_prevMonth_le (d : Int) :
    jsMakeDay (YearFromDay d) (jsMonthOfDay d - 1) (jsDateOfDay d) ≤ d := by
  have hm := month_char d
  have hrt := makeDay_roundtrip d
  have hdb := date_bounds d
  have hL := InLeapYear_bounds (YearFromDay d)
  have hL' := InLeapYear_bounds (YearFromDay d - 1)
  rcases eq_or_lt_of_le hm.2.2.1 with h0 | hpos
  · have hstep := DayFromYear_succ (YearFromDay d - 1)
    have hd1 : (jsMonthOfDay d - 1) / 12 = -1 := by omega
    have hd2 : (jsMonthOfDay d - 1) % 12 = 11 := by omega
    have hd3 : jsMonthOfDay d / 12 = 0 := by omega
    have hd4 : jsMonthOfDay d % 12 = jsMonthOfDay d := by omega
    have hdec := monthStartDay_dec_bound (InLeapYear (YearFromDay d - 1)) hL'
    have hjan : monthStartDay (jsMonthOfDay d) (InLeapYear (YearFromDay d)) = 0 := by
      rw [← h0]; unfold monthStartDay; norm_num
    have he : YearFromDay d + -1 = YearFromDay d - 1 := by ring
    have he2 : YearFromDay d - 1 + 1 = YearFromDay d := by ring
    rw [he2] at hstep
    unfold jsMakeDay at *
    rw [hd1, hd2, he]
    rw [hd3, hd4, add_zero] at hrt
    unfold jsDateOfDay at *
    omega
  · have hd1 : (jsMonthOfDay d - 1) / 12 = 0 := by omega
    have hd2 : (jsMonthOfDay d - 1) % 12 = jsMonthOfDay d - 1 := by omega
    have hd3 : jsMonthOfDay d / 12 = 0 := by omega
    have hd4 : jsMonthOfDay d % 12 = jsMonthOfDay d := by omega
    have hmono := monthStartDay_mono_pred (jsMonthOfDay d) (InLeapYear (YearFromDay d)) hL
      hpos hm.2.2.2
    unfold jsMakeDay at *
    rw [hd1, hd2, add_zero]
    rw [hd3, hd4, add_zero] at hrt
    unfold jsDateOfDay at *
    omega

theorem monthStartDay_range (m L : Int) (hL : 0 ≤ L ∧ L ≤ 1) (h0 : 0 ≤ m) (h1 : m ≤ 11) :
    0 ≤ monthStartDay m L ∧ monthStartDay m L ≤ 334 + L := by
  unfold monthStartDay
  split_ifs <;> omega

theorem yearOfMakeDay (y m d : Int) (hm : 0 ≤ m ∧ m ≤ 11) (hd : 1 ≤ d ∧ d ≤ 31) :
    YearFromDay (jsMakeDay y m d) = y := by
  have hL := InLeapYear_bounds y
  have hmsb := monthStartDay_range m (InLeapYear y) hL hm.1 hm.2
  have hsucc := DayFromYear_succ y
  have h12 : m / 12 = 0 := by omega
  have h12' : m % 12 = m := by omega
  apply YearFromDay_unique
  · unfold jsMakeDay
    rw [h12, h12', add_zero]
    omega
  · unfold jsMakeDay
    rw [h12, h12', add_zero]
    omega

theorem jsMakeFullYear_not_quirk (y : Int) :
    ¬(0 ≤ jsMakeFullYear y ∧ jsMakeFullYear y ≤ 99) := by
  unfold jsMakeFullYear
  split_ifs <;> omega

theorem jsMakeDay_shift (y m a b : Int) :
    jsMakeDay y m a = jsMakeDay y m b + (a - b) := by
  unfold jsMakeDay
  ring

theorem jsSetDate_shift (t k : Int) :
    jsSetDate t (jsGetDate t - k) = jsTimeClip (t - k * MS_PER_DAY) := by
  have hrt := makeDay_roundtrip (jsDayOf t)
  have hsh := jsMakeDay_shift (jsGetFullYear t) (jsGetMonth t) (jsGetDate t - k) (jsGetDate t)
  unfold jsSetDate
  congr 1
  simp only [jsGetFullYear, jsGetMonth, jsGetDate] at hsh ⊢
  simp only [jsDayOf, jsTimeWithinDay, MS_PER_DAY] at hrt hsh ⊢
  omega

theorem jsSetMonth_prev_le (t s : Int) (h : jsSetMonth t (jsGetMonth t - 1) = some s) :
    s ≤ t := by
  have hp := jsMakeDay_prevMonth_le (jsDayOf t)
  unfold jsSetMonth jsTimeClip at h
  split_ifs at h
  injection h with h
  subst h
  simp only [jsGetFullYear, jsGetMonth, jsGetDate] at hp ⊢
  simp only [jsDayOf, jsTimeWithinDay, MS_PER_DAY] at hp ⊢
  omega

theorem jsNewDate_firstOfMonth_le (t s : Int)
    (hq : ¬(0 ≤ jsGetFullYear t ∧ jsGetFullYear t ≤ 99))
    (h : jsNewDateYMD (jsGetFullYear t) (jsGetMonth t) 1 = some s) : s ≤ t := by
  have hf := jsMakeDay_firstOfMonth_le (jsDayOf t)
  unfold jsNewDateYMD jsMakeFullYear at h
  rw [if_neg hq] at h
  unfold jsTimeClip at h
  split_ifs at h
  injection h with h
  subst h
  simp only [jsGetFullYear, jsGetMonth] at hf ⊢
  simp only [jsDayOf, MS_PER_DAY] at hf ⊢
  omega

theorem jsGetDay_bounds (t : Int) : 0 ≤ jsGetDay t ∧ jsGetDay t ≤ 6 := by
  unfold jsGetDay
  omega

theorem jsGetFullYear_midnight (X : Int) :
    jsGetFullYear (X * MS_PER_DAY) = YearFromDay X := by
  unfold jsGetFullYear jsDayOf MS_PER_DAY
  have hdiv : X * 86400000 / 86400000 = X := by omega
  rw [hdiv]

theorem jsTodayFrom_not_quirk (now t0 : Int) (h : jsTodayFrom now = some t0) :
    ¬(0 ≤ jsGetFullYear t0 ∧ jsGetFullYear t0 ≤ 99) := by
  unfold jsTodayFrom jsNewDateYMD jsTimeClip at h
  split_ifs at h
  injection h with h
  have hm := month_char (jsDayOf now)
  have hd := date_bounds (jsDayOf now)
  have hy := yearOfMakeDay (jsMakeFullYear (jsGetFullYear now)) (jsGetMonth now)
    (jsGetDate now) (by unfold jsGetMonth; exact ⟨hm.2.2.1, hm.2.2.2⟩)
    (by unfold jsGetDate; exact hd)
  rw [← h, jsGetFullYear_midnight, hy]
  exact jsMakeFullYear_not_quirk _

theorem YearFromDay_nonneg_ge (dn : Int) (h : 0 ≤ dn) : 1969 ≤ YearFromDay dn := by
  have hc := YearFromDay_correct dn
  have ha := DayFromYear_approx (YearFromDay dn + 1)
  omega

theorem jsTodayFrom_of_epoch (now : Int) (h0 : 0 ≤ now) (h1 : now ≤ MAX_TIME_VALUE) :
    jsTodayFrom now = some (now / MS_PER_DAY * MS_PER_DAY) := by
  have hdn : 0 ≤ now / MS_PER_DAY := by unfold MS_PER_DAY; omega
  have hy := YearFromDay_nonneg_ge (now / MS_PER_DAY) hdn
  have hrt := makeDay_roundtrip (now / MS_PER_DAY)
  unfold jsTodayFrom jsNewDateYMD jsMakeFullYear jsGetFullYear jsGetMonth jsGetDate jsDayOf
  rw [if_neg (by omega)]
  rw [hrt]
  unfold jsTimeClip
  rw [if_pos]
  unfold MAX_TIME_VALUE MS_PER_DAY at *
  omega

theorem insertBy_perm {α : Type} (bef : α → α → Bool) (a : α) (l : List α) :
    List.Perm (insertBy bef a l) (a :: l) := by
  induction l with
  | nil => simp [insertBy]
  | cons b t ih =>
    unfold insertBy
    split_ifs with hcase
    · exact (List.Perm.cons b ih).trans (List.Perm.swap a b t)
    · exact List.Perm.refl _

theorem sortBy_perm {α : Type} (bef : α → α → Bool) (l : List α) :
    List.Perm (sortBy bef l) l := by
  induction l with
  | nil => exact List.Perm.refl _
  | cons a t ih =>
    exact (insertBy_perm bef a (sortBy bef t)).trans (List.Perm.cons a ih)

theorem mem_sortBy {α : Type} (bef : α → α → Bool) (l : List α) (x : α) :
    x ∈ sortBy bef l ↔ x ∈ l := (sortBy_perm bef l).mem_iff

theorem pairwise_insertBy {α : Type} (bef : α → α → Bool)
    (hneg : ∀ a b c, bef b a = false → bef c b = false → bef c a = false)
    (hasym : ∀ a b, bef a b = true → bef b a = false)
    (a : α) (l : List α) (h : List.Pairwise (fun x y => bef y x = false) l) :
    List.Pairwise (fun x y => bef y x = false) (insertBy bef a l) := by
  induction l with
  | nil => simp [insertBy]
  | cons b t ih =>
    unfold insertBy
    rw [List.pairwise_cons] at h
    split_ifs with hcase
    · rw [List.pairwise_cons]
      refine ⟨?_, ih h.2⟩
      intro y hy
      rw [(insertBy_perm bef a t).mem_iff, List.mem_cons] at hy
      rcases hy with hy | hy
      · subst hy
        exact hasym b y hcase
      · exact h.1 y hy
    · rw [Bool.not_eq_true] at hcase
      rw [List.pairwise_cons]
      refine ⟨?_, List.pairwise_cons.2 h⟩
      intro y hy
      rw [List.mem_cons] at hy
      rcases hy with hy | hy
      · subst hy
        exact hcase
      · exact hneg a b y hcase (h.1 y hy)

theorem pairwise_sortBy {α : Type} (bef : α → α → Bool)
    (hneg : ∀ a b c, bef b a = false → bef c b = false → bef c a = false)
    (hasym : ∀ a b, bef a b = true → bef b a = false) (l : List α) :
    List.Pairwise (fun x y => bef y x = false) (sortBy bef l) := by
  induction l with
  | nil => simp [sortBy]
  | cons a t ih => exact pairwise_insertBy bef hneg hasym a (sortBy bef t) ih

theorem runSearchQuery_length (dist : List Rat → List Rat → Rat) (q : List Rat)
    (rows : List (DiaryEmbeddingRow × Diary)) (topK : Int) :
    (runSearchQuery dist q rows topK).length ≤ topK.toNat := by
  unfold runSearchQuery
  rw [List.length_map, List.length_take]
  exact min_le_left _ _

theorem runSearchQuery_sorted (dist : List Rat → List Rat → Rat) (q : List Rat)
    (rows : List (DiaryEmbeddingRow × Diary)) (topK : Int) :
    List.Pairwise (fun x y : DiarySearchResult => y.score ≤ x.score)
      (runSearchQuery dist q rows topK) := by
  unfold runSearchQuery
  rw [List.pairwise_map]
  refine List.Pairwise.imp ?_
    (List.Pairwise.sublist (List.take_sublist _ _) (pairwise_sortBy _ ?_ ?_ rows))
  · intro r s hdec
    rw [decide_eq_false_iff_not, not_lt] at hdec
    simp only []
    linarith
  · intro r s u h1 h2
    rw [decide_eq_false_iff_not, not_lt] at h1 h2 ⊢
    exact h1.trans h2
  · intro r s h1
    rw [decide_eq_true_eq] at h1
    rw [decide_eq_false_iff_not, not_lt]
    exact le_of_lt h1

theorem runSearchQuery_mem (dist : List Rat → List Rat → Rat) (q : List Rat)
    (rows : List (DiaryEmbeddingRow × Diary)) (topK : Int) (r : DiarySearchResult)
    (hr : r ∈ runSearchQuery dist q rows topK) :
    ∃ p ∈ rows, r = ⟨p.2.diary_id, p.2.title, p.2.content, p.2.date, p.2.color,
      1 - dist p.1.embedding q⟩ := by
  unfold runSearchQuery at hr
  rw [List.mem_map] at hr
  obtain ⟨p, hp, hpr⟩ := hr
  refine ⟨p, ?_, hpr.symm⟩
  have := (List.take_sublist _ _).mem hp
  rw [mem_sortBy] at this
  exact this

theorem joinRows_mem (db : VectorDB) (p : DiaryEmbeddingRow × Diary)
    (hp : p ∈ joinRows db) : p.2 ∈ db.diaries ∧ p.2.diary_id = p.1.diary_id := by
  unfold joinRows at hp
  rw [List.mem_flatMap] at hp
  obtain ⟨de, _, hmem⟩ := hp
  rw [List.mem_map] at hmem
  obtain ⟨d, hd, hpd⟩ := hmem
  rw [List.mem_filter] at hd
  subst hpd
  exact ⟨hd.1, by simpa using hd.2⟩

theorem rangeDaysAgo_wellOrdered (today : Option Int) (k : Int) (hk : 0 ≤ k) :
    ∀ s e, (rangeDaysAgo today k).startDate = some s →
      (rangeDaysAgo today k).endDate = some e → s ≤ e := by
  intro s e hs he
  simp only [rangeDaysAgo] at hs he
  rcases today with _ | t
  · exact Option.noConfusion he
  · injection he with he
    subst he
    have hs' : jsSetDate t (jsGetDate t - k) = some s := hs
    rw [jsSetDate_shift] at hs'
    unfold jsTimeClip at hs'
    split_ifs at hs'
    injection hs' with hs'
    subst hs'
    unfold MS_PER_DAY
    omega

theorem rangeThisWeek_wellOrdered (today : Option Int) :
    ∀ s e, (rangeThisWeek today).startDate = some s →
      (rangeThisWeek today).endDate = some e → s ≤ e := by
  intro s e hs he
  simp only [rangeThisWeek] at hs he
  rcases today with _ | t
  · exact Option.noConfusion he
  · injection he with he
    subst he
    have hdow := jsGetDay_bounds t
    have hs' : jsSetDate t (jsGetDate t - jsGetDay t) = some s := hs
    rw [jsSetDate_shift] at hs'
    unfold jsTimeClip at hs'
    split_ifs at hs'
    injection hs' with hs'
    subst hs'
    unfold MS_PER_DAY
    omega

theorem rangeLastMonth_wellOrdered (today : Option Int) :
    ∀ s e, (rangeLastMonth today).startDate = some s →
      (rangeLastMonth today).endDate = some e → s ≤ e := by
  intro s e hs he
  simp only [rangeLastMonth] at hs he
  rcases today with _ | t
  · exact Option.noConfusion he
  · injection he with he
    subst he
    exact jsSetMonth_prev_le t s hs

theorem rangeThisMonth_wellOrdered (now : Int) :
    ∀ s e, (rangeThisMonth (jsTodayFrom now)).startDate = some s →
      (rangeThisMonth (jsTodayFrom now)).endDate = some e → s ≤ e := by
  intro s e hs he
  simp only [rangeThisMonth] at hs he
  rcases htoday : jsTodayFrom now with _ | t
  · rw [htoday] at he
    exact Option.noConfusion he
  · rw [htoday] at hs he
    injection he with he
    subst he
    exact jsNewDate_firstOfMonth_le t s (jsTodayFrom_not_quirk now t htoday) hs

theorem rangeToday_wellOrdered (today : Option Int) :
    ∀ s e, (rangeToday today).startDate = some s →
      (rangeToday today).endDate = some e → s ≤ e := by
  intro s e hs he
  simp only [rangeToday] at hs he
  rw [hs] at he
  injection he with he
  omega

theorem rangeYesterday_wellOrdered (today : Option Int) :
    ∀ s e, (rangeYesterday today).startDate = some s →
      (rangeYesterday today).endDate = some e → s ≤ e := by
  intro s e hs he
  simp only [rangeYesterday] at hs he
  rw [hs] at he
  injection he with he
  omega

theorem rangeSpecific_wellOrdered (y mo d : Nat) :
    ∀ s e, (rangeSpecific y mo d).startDate = some s →
      (rangeSpecific y mo d).endDate = some e → s ≤ e := by
  intro s e hs he
  simp only [rangeSpecific] at hs he
  rw [hs] at he
  injection he with he
  omega

/-- Case analysis for an equation whose left side is a Boolean `if`. -/
theorem ite_eq_cases {α : Sort u} {c : Bool} {x y z : α}
    (h : (if c = true then x else y) = z) :
    (c = true ∧ x = z) ∨ (c = false ∧ y = z) := by
  cases c
  · exact Or.inr ⟨rfl, h⟩
  · exact Or.inl ⟨rfl, h⟩

set_option maxHeartbeats 4000000 in
/-- C10 (amended): for every clock value and query string, when
`parseDateRange` returns a non-null `DateRange` whose `startDate` and
`endDate` are both valid dates, `startDate ≤ endDate` — the window is never
inverted, in every branch of the pattern table; the `startDate` can fail to
be a valid date only when a day-count branch falls outside the representable
JS `Date` range. -/
theorem parseDateRange_wellOrdered (now : Int) (query : String) (r : DateRange)
    (h : parseDateRange now query = some r) :
    ∀ s e, r.startDate = some s → r.endDate = some e → s ≤ e := by
  unfold parseDateRange at h
  split at h
  · injection h with h; subst h
    exact rangeDaysAgo_wellOrdered _ _ (Int.natCast_nonneg _)
  split at h
  · injection h with h; subst h
    exact rangeDaysAgo_wellOrdered _ _ (Int.natCast_nonneg _)
  replace h := ite_eq_cases h
  rcases h with ⟨_, h⟩ | ⟨_, h⟩
  · injection h with h; subst h
    exact rangeDaysAgo_wellOrdered _ _ (by norm_num)
  replace h := ite_eq_cases h
  rcases h with ⟨_, h⟩ | ⟨_, h⟩
  · injection h with h; subst h
    exact rangeThisWeek_wellOrdered _
  replace h := ite_eq_cases h
  rcases h with ⟨_, h⟩ | ⟨_, h⟩
  · injection h with h; subst h
    exact rangeLastMonth_wellOrdered _
  replace h := ite_eq_cases h
  rcases h with ⟨_, h⟩ | ⟨_, h⟩
  · injection h with h; subst h
    exact rangeThisMonth_wellOrdered now
  replace h := ite_eq_cases h
  rcases h with ⟨_, h⟩ | ⟨_, h⟩
  · injection h with h; subst h
    exact rangeDaysAgo_wellOrdered _ _ (by norm_num)
  replace h := ite_eq_cases h
  rcases h with ⟨_, h⟩ | ⟨_, h⟩
  · injection h with h; subst h
    exact rangeToday_wellOrdered _
  replace h := ite_eq_cases h
  rcases h with ⟨_, h⟩ | ⟨_, h⟩
  · injection h with h; subst h
    exact rangeYesterday_wellOrdered _
  split at h
  · injection h with h; subst h
    exact rangeDaysAgo_wellOrdered _ _ (Int.natCast_nonneg _)
  split at h
  · injection h with h; subst h
    exact rangeDaysAgo_wellOrdered _ _ (Int.natCast_nonneg _)
  replace h := ite_eq_cases h
  rcases h with ⟨_, h⟩ | ⟨_, h⟩
  · injection h with h; subst h
    exact rangeDaysAgo_wellOrdered _ _ (by norm_num)
  replace h := ite_eq_cases h
  rcases h with ⟨_, h⟩ | ⟨_, h⟩
  · injection h with h; subst h
    exact rangeThisWeek_wellOrdered _
  replace h := ite_eq_cases h
  rcases h with ⟨_, h⟩ | ⟨_, h⟩
  · injection h with h; subst h
    exact rangeLastMonth_wellOrdered _
  replace h := ite_eq_cases h
  rcases h with ⟨_, h⟩ | ⟨_, h⟩
  · injection h with h; subst h
    exact rangeThisMonth_wellOrdered now
  replace h := ite_eq_cases h
  rcases h with ⟨_, h⟩ | ⟨_, h⟩
  · injection h with h; subst h
    exact rangeDaysAgo_wellOrdered _ _ (by norm_num)
  replace h := ite_eq_cases h
  rcases h with ⟨_, h⟩ | ⟨_, h⟩
  · injection h with h; subst h
    exact rangeToday_wellOrdered _
  replace h := ite_eq_cases h
  rcases h with ⟨_, h⟩ | ⟨_, h⟩
  · injection h with h; subst h
    exact rangeYesterday_wellOrdered _
  split at h
  · injection h with h; subst h
    exact rangeSpecific_wellOrdered _ _ _
  exact Option.noConfusion h

/-- C10 witness: for the concrete query "지난 달에" on 2025-06-15T12:00Z the
parsed window is valid on both ends and the theorem yields
startDate ≤ endDate. -/
theorem parseDateRange_wellOrdered_witness :
    parseDateRange 1749988800000 "지난 달에" =
      some ⟨some 1747267200000, some 1749945600000⟩ ∧
      (1747267200000 : Int) ≤ 1749945600000 := by
  constructor
  · decide
  · exact parseDateRange_wellOrdered 1749988800000 "지난 달에"
      ⟨some 1747267200000, some 1749945600000⟩ (by decide)
      1747267200000 1749945600000 (by decide) (by decide)

/-- C10 counterexample: on the query "최근 200000000일" issued at
2025-06-15T12:00Z, `parseDateRange` returns a non-null range whose
`startDate` is an Invalid Date (the subtraction leaves the representable
range, ECMA-262 TimeClip), so "startDate ≤ endDate" fails as stated:
the JS comparison on an Invalid Date is false. -/
theorem parseDateRange_wellOrdered_cex :
    parseDateRange 1749988800000 "최근 200000000일" =
      some ⟨none, some 1749945600000⟩ ∧
      jsDateLe none (some 1749945600000) = false := by
  constructor
  · decide
  · decide

/-- C6 (amended): whenever the query matches the first pattern of the table,
the Korean day-count phrase `지난 N일`, `parseDateRange` returns the window
whose end is the local midnight of today and whose start is local midnight
today minus N days — clipped to an Invalid Date when that instant leaves the
representable JS `Date` range — regardless of any other pattern occurring in
the query (the day-count phrase is tried first). -/
theorem parseDateRange_lastNDays (now : Int) (query : String) (n : Nat)
    (hnow : 0 ≤ now ∧ now ≤ MAX_TIME_VALUE)
    (hmatch : findNum "지난".data "일".data query.data = some n) :
    parseDateRange now query =
      some ⟨jsTimeClip (now / MS_PER_DAY * MS_PER_DAY - n * MS_PER_DAY),
        some (now / MS_PER_DAY * MS_PER_DAY)⟩ := by
  have ht := jsTodayFrom_of_epoch now hnow.1 hnow.2
  have hshift := jsSetDate_shift (now / MS_PER_DAY * MS_PER_DAY) (n : Int)
  unfold parseDateRange
  rw [hmatch, ht]
  show some (rangeDaysAgo (some (now / MS_PER_DAY * MS_PER_DAY)) (n : Int)) = _
  unfold rangeDaysAgo
  show some (DateRange.mk
      (jsSetDate (now / MS_PER_DAY * MS_PER_DAY)
        (jsGetDate (now / MS_PER_DAY * MS_PER_DAY) - (n : Int)))
      (some (now / MS_PER_DAY * MS_PER_DAY))) = _
  rw [hshift]

/-- C6 witness: the spec's example — "지난 7일 동안 어땠어?" issued on
2025-06-15 parses to the window 2025-06-08 .. 2025-06-15 (both local
midnights; month 5 is 0-based June). -/
theorem parseDateRange_lastNDays_witness :
    parseDateRange 1749988800000 "지난 7일 동안 어땠어?" =
      some ⟨some 1749340800000, some 1749945600000⟩ ∧
      YearFromDay (jsDayOf 1749340800000) = 2025 ∧
      jsMonthOfDay (jsDayOf 1749340800000) = 5 ∧
      jsDateOfDay (jsDayOf 1749340800000) = 8 ∧
      YearFromDay (jsDayOf 1749945600000) = 2025 ∧
      jsMonthOfDay (jsDayOf 1749945600000) = 5 ∧
      jsDateOfDay (jsDayOf 1749945600000) = 15 := by
  refine ⟨?_, by decide, by decide, by decide, by decide, by decide, by decide⟩
  have h := parseDateRange_lastNDays 1749988800000 "지난 7일 동안 어땠어?" 7
    (by constructor <;> decide) (by decide)
  rw [h]
  decide

/-- C6 counterexample: for "지난 300000000일 동안 어땠어?" issued on
2025-06-15, the code does not return "local midnight of today minus N days";
the startDate is an Invalid Date because today minus 300000000 days is
outside the representable JS `Date` range. -/
theorem parseDateRange_lastNDays_cex :
    parseDateRange 1749988800000 "지난 300000000일 동안 어땠어?" =
      some ⟨none, some 1749945600000⟩ ∧
      jsTimeClip (1749945600000 - 300000000 * MS_PER_DAY) = none := by
  constructor
  · decide
  · decide

/-- Results of a search over owner-filtered joined rows refer to diaries of
that owner. -/
theorem searchSimilarDiaries_owned (dist : List Rat → List Rat → Rat) (db : VectorDB)
    (userId : Int) (q : List Rat) (topK : Int) (l : List DiarySearchResult)
    (hl : searchSimilarDiaries dist db userId q topK = Except.ok l) :
    ∀ r ∈ l, ∃ d ∈ db.diaries, d.diary_id = r.diary_id ∧ d.user_id = userId := by
  intro r hr
  unfold searchSimilarDiaries at hl
  split_ifs at hl
  all_goals try exact Except.noConfusion hl
  injection hl with hl
  subst hl
  obtain ⟨p, hp, hre⟩ := runSearchQuery_mem dist q _ topK r hr
  rw [List.mem_filter] at hp
  obtain ⟨hj, hf⟩ := hp
  refine ⟨p.2, (joinRows_mem db p hj).1, ?_, by simpa using hf⟩
  subst hre
  rfl

/-- C1: both vector-search entry points return only the querying owner's
diaries: every result row of `searchSimilarDiaries` and of
`searchDiariesWithDateFilter` corresponds to a stored diary whose `user_id`
equals the caller's `userId`, whatever the distance function reports for
other owners' diaries. -/
theorem search_owner_isolation :
    (∀ (dist : List Rat → List Rat → Rat) (db : VectorDB) (userId : Int)
        (q : List Rat) (topK : Int) (l : List DiarySearchResult),
        searchSimilarDiaries dist db userId q topK = Except.ok l →
        ∀ r ∈ l, ∃ d ∈ db.diaries, d.diary_id = r.diary_id ∧ d.user_id = userId) ∧
    (∀ (dist : List Rat → List Rat → Rat) (db : VectorDB) (userId : Int)
        (q : List Rat) (topK : Int) (dr : Option (Int × Int))
        (l : List DiarySearchResult),
        searchDiariesWithDateFilter dist db userId q topK dr = Except.ok l →
        ∀ r ∈ l, ∃ d ∈ db.diaries, d.diary_id = r.diary_id ∧ d.user_id = userId) := by
  constructor
  · intro dist db userId q topK l hl
    exact searchSimilarDiaries_owned dist db userId q topK l hl
  · intro dist db userId q topK dr l hl r hr
    cases dr with
    | none => exact searchSimilarDiaries_owned dist db userId q topK l hl r hr
    | some se =>
      have hl' : Except.ok (runSearchQuery dist q ((joinRows db).filter (fun p =>
          p.2.user_id == userId && decide (se.1 ≤ p.2.date) &&
            decide (p.2.date ≤ jsEndOfDay se.2))) topK) = Except.ok l := hl
      injection hl' with hl'
      subst hl'
      obtain ⟨p, hp, hre⟩ := runSearchQuery_mem dist q _ topK r hr
      rw [List.mem_filter] at hp
      obtain ⟨hj, hf⟩ := hp
      simp only [Bool.and_eq_true, beq_iff_eq, decide_eq_true_eq] at hf
      refine ⟨p.2, (joinRows_mem db p hj).1, ?_, hf.1.1⟩
      subst hre
      rfl

set_option maxRecDepth 8000 in
/-- C1 witness: a two-owner database in which the other owner's diary is
strictly closer to the query; the returned list contains only the caller's
diary, and the theorem locates its stored row with the caller's id. -/
theorem search_owner_isolation_witness :
    searchSimilarDiaries (fun a _ => (a.length : Rat))
      ⟨[⟨1, 42, "a", "b", "c", 10⟩, ⟨2, 7, "x", "y", "z", 11⟩],
       [⟨1, [0, 0]⟩, ⟨2, []⟩]⟩ 42 (List.replicate 1536 0) 5 =
      Except.ok [⟨1, "a", "b", 10, "c", 1 - (([0, 0] : List Rat).length : Rat)⟩] ∧
    ∃ d ∈ [(⟨1, 42, "a", "b", "c", 10⟩ : Diary), ⟨2, 7, "x", "y", "z", 11⟩],
      d.diary_id = (1 : Int) ∧ d.user_id = (42 : Int) :=
  ⟨rfl,
    search_owner_isolation.1 (fun a _ => (a.length : Rat))
      ⟨[⟨1, 42, "a", "b", "c", 10⟩, ⟨2, 7, "x", "y", "z", 11⟩],
       [⟨1, [0, 0]⟩, ⟨2, []⟩]⟩ 42 (List.replicate 1536 0) 5
      [⟨1, "a", "b", 10, "c", 1 - (([0, 0] : List Rat).length : Rat)⟩] rfl
      ⟨1, "a", "b", 10, "c", 1 - (([0, 0] : List Rat).length : Rat)⟩
      (List.mem_singleton.mpr rfl)⟩

/-- C2: a successful `searchSimilarDiaries` call returns at most `topK`
results, ordered by non-increasing similarity score. -/
theorem searchSimilarDiaries_topK_ordered :
    ∀ (dist : List Rat → List Rat → Rat) (db : VectorDB) (userId : Int)
      (q : List Rat) (topK : Int) (l : List DiarySearchResult),
      searchSimilarDiaries dist db userId q topK = Except.ok l →
      (l.length : Int) ≤ topK ∧
        List.Pairwise (fun x y : DiarySearchResult => y.score ≤ x.score) l := by
  intro dist db userId q topK l hl
  unfold searchSimilarDiaries at hl
  split_ifs at hl with h1 h2
  all_goals try exact Except.noConfusion hl
  injection hl with hl
  subst hl
  constructor
  · have hlen := runSearchQuery_length dist q
      ((joinRows db).filter (fun r => r.2.user_id == userId)) topK
    omega
  · exact runSearchQuery_sorted dist q _ topK

set_option maxRecDepth 8000 in
/-- C2 witness: with `topK = 1` and two stored diaries of the caller, the
call returns exactly the closest one; the theorem bounds the length by 1 and
certifies the ordering. -/
theorem searchSimilarDiaries_topK_ordered_witness :
    searchSimilarDiaries (fun a _ => (a.length : Rat))
      ⟨[⟨1, 42, "a", "b", "c", 10⟩, ⟨2, 42, "x", "y", "z", 11⟩],
       [⟨1, [0]⟩, ⟨2, [0, 0]⟩]⟩ 42 (List.replicate 1536 0) 1 =
      Except.ok [⟨1, "a", "b", 10, "c", 1 - (([0] : List Rat).length : Rat)⟩] ∧
    (([(⟨1, "a", "b", 10, "c",
          1 - (([0] : List Rat).length : Rat)⟩ : DiarySearchResult)].length : Int) ≤ 1 ∧
      List.Pairwise (fun x y : DiarySearchResult => y.score ≤ x.score)
        [⟨1, "a", "b", 10, "c", 1 - (([0] : List Rat).length : Rat)⟩]) :=
  ⟨rfl, searchSimilarDiaries_topK_ordered (fun a _ => (a.length : Rat))
      ⟨[⟨1, 42, "a", "b", "c", 10⟩, ⟨2, 42, "x", "y", "z", 11⟩],
       [⟨1, [0]⟩, ⟨2, [0, 0]⟩]⟩ 42 (List.replicate 1536 0) 1
      [⟨1, "a", "b", 10, "c", 1 - (([0] : List Rat).length : Rat)⟩] rfl⟩

/-- C3: when a date range `(s, e)` is given, every result of
`searchDiariesWithDateFilter` has its diary date inside the inclusive window
from `s` to the last millisecond of the day of `e`. -/
theorem searchDiariesWithDateFilter_window :
    ∀ (dist : List Rat → List Rat → Rat) (db : VectorDB) (userId : Int)
      (q : List Rat) (topK : Int) (s e : Int) (l : List DiarySearchResult),
      searchDiariesWithDateFilter dist db userId q topK (some (s, e)) = Except.ok l →
      ∀ r ∈ l, s ≤ r.date ∧ r.date ≤ jsEndOfDay e := by
  intro dist db userId q topK s e l hl r hr
  have hl' : Except.ok (runSearchQuery dist q ((joinRows db).filter (fun p =>
      p.2.user_id == userId && decide (s ≤ p.2.date) &&
        decide (p.2.date ≤ jsEndOfDay e))) topK) = Except.ok l := hl
  injection hl' with hl'
  subst hl'
  obtain ⟨p, hp, hre⟩ := runSearchQuery_mem dist q _ topK r hr
  rw [List.mem_filter] at hp
  have hcond := hp.2
  simp only [Bool.and_eq_true, decide_eq_true_eq] at hcond
  subst hre
  exact ⟨hcond.1.2, hcond.2⟩

/-- C3 witness: with the window `(0, 0)` only the diary dated inside day 0
is returned (the one dated past `jsEndOfDay 0 = 86399999` is filtered out),
and the theorem bounds its date by the window. -/
theorem searchDiariesWithDateFilter_window_witness :
    searchDiariesWithDateFilter (fun a _ => (a.length : Rat))
      ⟨[⟨1, 42, "a", "b", "c", 5⟩, ⟨2, 42, "x", "y", "z", 90000000⟩],
       [⟨1, []⟩, ⟨2, []⟩]⟩ 42 [] 5 (some (0, 0)) =
      Except.ok [⟨1, "a", "b", 5, "c", 1 - (([] : List Rat).length : Rat)⟩] ∧
    ((0 : Int) ≤ 5 ∧ (5 : Int) ≤ jsEndOfDay 0) :=
  ⟨rfl, searchDiariesWithDateFilter_window (fun a _ => (a.length : Rat))
      ⟨[⟨1, 42, "a", "b", "c", 5⟩, ⟨2, 42, "x", "y", "z", 90000000⟩],
       [⟨1, []⟩, ⟨2, []⟩]⟩ 42 [] 5 0 0
      [⟨1, "a", "b", 5, "c", 1 - (([] : List Rat).length : Rat)⟩] rfl
      ⟨1, "a", "b", 5, "c", 1 - (([] : List Rat).length : Rat)⟩
      (List.mem_singleton.mpr rfl)⟩

/-- C4: `searchCache` reports a hit exactly when some stored row of the same
user is younger than the 24-hour TTL and at least 92% similar to the query;
and the returned entry is such a row of maximal similarity (minimal
distance), carrying its response and its exact similarity. -/
theorem searchCache_hit_spec :
    ∀ (dist : List Rat → List Rat → Rat) (rows : List SemanticCacheRow)
      (now userId : Int) (q : List Rat),
      ((searchCache dist rows now userId q).hit = true ↔
        ∃ r ∈ rows, r.user_id = userId ∧
          now - CACHE_TTL_HOURS * 3600000 < r.created_at ∧
          SIMILARITY_THRESHOLD ≤ 1 - dist r.query_embedding q) ∧
      (∀ e, (searchCache dist rows now userId q).entry = some e →
        ∃ r ∈ rows, r.user_id = userId ∧
          now - CACHE_TTL_HOURS * 3600000 < r.created_at ∧
          SIMILARITY_THRESHOLD ≤ 1 - dist r.query_embedding q ∧
          e.response = r.response ∧ e.similarity = 1 - dist r.query_embedding q ∧
          ∀ r2 ∈ rows, r2.user_id = userId →
            now - CACHE_TTL_HOURS * 3600000 < r2.created_at →
            SIMILARITY_THRESHOLD ≤ 1 - dist r2.query_embedding q →
            1 - dist r2.query_embedding q ≤ 1 - dist r.query_embedding q) := by
  intro dist rows now userId q
  rcases hL : sortBy (fun r s =>
      decide (dist r.query_embedding q < dist s.query_embedding q))
      (rows.filter (fun r =>
        r.user_id == userId && decide (now - CACHE_TTL_HOURS * 3600000 < r.created_at) &&
          decide (SIMILARITY_THRESHOLD ≤ 1 - dist r.query_embedding q))) with _ | ⟨a, t⟩
  · have hfil : rows.filter (fun r =>
        r.user_id == userId && decide (now - CACHE_TTL_HOURS * 3600000 < r.created_at) &&
          decide (SIMILARITY_THRESHOLD ≤ 1 - dist r.query_embedding q)) = [] := by
      have hperm := sortBy_perm (fun r s =>
        decide (dist r.query_embedding q < dist s.query_embedding q))
        (rows.filter (fun r =>
          r.user_id == userId && decide (now - CACHE_TTL_HOURS * 3600000 < r.created_at) &&
            decide (SIMILARITY_THRESHOLD ≤ 1 - dist r.query_embedding q)))
      rw [hL] at hperm
      exact (hperm.symm).eq_nil
    have hres : searchCache dist rows now userId q = ⟨false, none, none, none⟩ := by
      simp only [searchCache]
      rw [hL]
      rfl
    constructor
    · rw [hres]
      constructor
      · intro hh
        exact Bool.noConfusion hh
      · rintro ⟨r, hr, hu, ht, hs⟩
        have hrf : r ∈ rows.filter (fun r =>
            r.user_id == userId && decide (now - CACHE_TTL_HOURS * 3600000 < r.created_at) &&
              decide (SIMILARITY_THRESHOLD ≤ 1 - dist r.query_embedding q)) := by
          rw [List.mem_filter]
          refine ⟨hr, ?_⟩
          simp only [Bool.and_eq_true, beq_iff_eq, decide_eq_true_eq]
          exact ⟨⟨hu, ht⟩, hs⟩
        rw [hfil] at hrf
        exact absurd hrf (List.not_mem_nil r)
    · intro e he
      rw [hres] at he
      exact Option.noConfusion he
  · have hmemS : a ∈ sortBy (fun r s =>
        decide (dist r.query_embedding q < dist s.query_embedding q))
        (rows.filter (fun r =>
          r.user_id == userId && decide (now - CACHE_TTL_HOURS * 3600000 < r.created_at) &&
            decide (SIMILARITY_THRESHOLD ≤ 1 - dist r.query_embedding q))) := by
      rw [hL]
      exact List.mem_cons_self a t
    rw [mem_sortBy, List.mem_filter] at hmemS
    obtain ⟨haRows, haCond⟩ := hmemS
    simp only [Bool.and_eq_true, beq_iff_eq, decide_eq_true_eq] at haCond
    have hres : searchCache dist rows now userId q =
        ⟨true, some ⟨a.id, a.user_id, "", a.query, a.response, a.diary_ids,
          1 - dist a.query_embedding q, a.created_at⟩,
          some a.response, some a.diary_ids⟩ := by
      simp only [searchCache]
      rw [hL]
      rfl
    constructor
    · rw [hres]
      constructor
      · intro _
        exact ⟨a, haRows, haCond.1.1, haCond.1.2, haCond.2⟩
      · intro _
        rfl
    · intro e he
      rw [hres] at he
      injection he with he
      subst he
      refine ⟨a, haRows, haCond.1.1, haCond.1.2, haCond.2, rfl, rfl, ?_⟩
      intro r2 hr2 hu2 ht2 hs2
      have hr2f : r2 ∈ rows.filter (fun r =>
          r.user_id == userId && decide (now - CACHE_TTL_HOURS * 3600000 < r.created_at) &&
            decide (SIMILARITY_THRESHOLD ≤ 1 - dist r.query_embedding q)) := by
        rw [List.mem_filter]
        refine ⟨hr2, ?_⟩
        simp only [Bool.and_eq_true, beq_iff_eq, decide_eq_true_eq]
        exact ⟨⟨hu2, ht2⟩, hs2⟩
      rw [← mem_sortBy (fun r s =>
        decide (dist r.query_embedding q < dist s.query_embedding q))] at hr2f
      rw [hL] at hr2f
      rcases List.mem_cons.mp hr2f with hEq | hMem
      · subst hEq
        exact le_refl _
      · have hp := pairwise_sortBy (fun r s =>
            decide (dist r.query_embedding q < dist s.query_embedding q))
          (fun x y z h1 h2 => by
            rw [decide_eq_false_iff_not, not_lt] at h1 h2 ⊢
            exact le_trans h1 h2)
          (fun x y h1 => by
            rw [decide_eq_true_eq] at h1
            rw [decide_eq_false_iff_not, not_lt]
            exact le_of_lt h1)
          (rows.filter (fun r =>
            r.user_id == userId && decide (now - CACHE_TTL_HOURS * 3600000 < r.created_at) &&
              decide (SIMILARITY_THRESHOLD ≤ 1 - dist r.query_embedding q)))
        rw [hL] at hp
        have hba := (List.pairwise_cons.mp hp).1 r2 hMem
        rw [decide_eq_false_iff_not, not_lt] at hba
        linarith

/-- C4 witness: with a distance of 1/20 (95% similarity), a row created one
hour before the query is a hit, while the same row created 25 hours earlier
is a miss (TTL exceeded). -/
theorem searchCache_hit_spec_witness :
    (searchCache (fun _ _ => 1/20)
      [⟨1, 42, "q", "resp", [], [], 90000000000 - 3600000⟩]
      90000000000 42 []).hit = true ∧
    (searchCache (fun _ _ => 1/20)
      [⟨1, 42, "q", "resp", [], [], 90000000000 - 25 * 3600000⟩]
      90000000000 42 []).hit = false := by
  constructor
  · exact (searchCache_hit_spec (fun _ _ => 1/20)
      [⟨1, 42, "q", "resp", [], [], 90000000000 - 3600000⟩] 90000000000 42 []).1.mpr
      ⟨⟨1, 42, "q", "resp", [], [], 90000000000 - 3600000⟩,
        List.mem_singleton.mpr rfl, rfl, by decide,
        by norm_num [SIMILARITY_THRESHOLD]⟩
  · cases hb : (searchCache (fun _ _ => 1/20)
        [⟨1, 42, "q", "resp", [], [], 90000000000 - 25 * 3600000⟩]
        90000000000 42 []).hit with
    | false => rfl
    | true =>
      exfalso
      obtain ⟨r, hr, hu, ht, hs⟩ := (searchCache_hit_spec (fun _ _ => 1/20)
        [⟨1, 42, "q", "resp", [], [], 90000000000 - 25 * 3600000⟩]
        90000000000 42 []).1.mp hb
      rw [List.mem_singleton] at hr
      subst hr
      exact absurd ht (by decide)

/-- Deleting the summarized (oldest) messages by id keeps exactly the
`l.length - k` most recent ones, provided message ids are unique. -/
theorem keep_recent_msgs (l L : List ChatMessage) (k : Nat)
    (hperm : List.Perm L l) (hk : k ≤ L.length)
    (hnd : (l.map (fun m => m.message_id)).Nodup) :
    (l.filter (fun m =>
        !((L.take k).map (fun m => m.message_id)).contains m.message_id)).length
      = l.length - k ∧
    ∀ m ∈ l.filter (fun m =>
        !((L.take k).map (fun m => m.message_id)).contains m.message_id),
      m ∈ L.drop k := by
  have hndL : (L.map (fun m => m.message_id)).Nodup :=
    ((hperm.map (fun m => m.message_id)).nodup_iff).mpr hnd
  have hsplit : L.map (fun m => m.message_id) =
      (L.take k).map (fun m => m.message_id) ++ (L.drop k).map (fun m => m.message_id) := by
    rw [← List.map_append, List.take_append_drop]
  rw [hsplit, List.nodup_append] at hndL
  obtain ⟨-, -, hdisj⟩ := hndL
  have hfperm := hperm.symm.filter (fun m =>
    !((L.take k).map (fun m => m.message_id)).contains m.message_id)
  obtain ⟨T, hT⟩ : ∃ T, L.take k = T := ⟨_, rfl⟩
  obtain ⟨D, hD⟩ : ∃ D, L.drop k = D := ⟨_, rfl⟩
  have hTD : T ++ D = L := by rw [← hT, ← hD, List.take_append_drop]
  rw [hT] at hdisj hfperm ⊢
  rw [hD] at hdisj ⊢
  have hfiltL : L.filter (fun m =>
      !(T.map (fun m => m.message_id)).contains m.message_id) = D := by
    conv_lhs => rw [← hTD]
    rw [List.filter_append]
    have h1 : T.filter (fun m =>
        !(T.map (fun m => m.message_id)).contains m.message_id) = [] := by
      rw [List.filter_eq_nil_iff]
      intro a ha
      have hmem : a.message_id ∈ T.map (fun m => m.message_id) :=
        List.mem_map_of_mem _ ha
      simp [hmem]
    have h2 : D.filter (fun m =>
        !(T.map (fun m => m.message_id)).contains m.message_id) = D := by
      rw [List.filter_eq_self]
      intro a ha
      have hmem : a.message_id ∈ D.map (fun m => m.message_id) :=
        List.mem_map_of_mem _ ha
      have hnotin : a.message_id ∉ T.map (fun m => m.message_id) :=
        fun hc => hdisj hc hmem
      simp [hnotin]
    rw [h1, h2, List.nil_append]
  constructor
  · have hle := hfperm.length_eq
    rw [hfiltL] at hle
    rw [hle, ← hD, List.length_drop, hperm.length_eq]
  · intro m hm
    have hmem := hfperm.mem_iff.mp hm
    rw [hfiltL] at hmem
    exact hmem

/-- C5: `summarizeOldMessages` is the identity (returning no summary) when
the session holds at most 10 messages; with more than 10 messages and unique
message ids it produces a summary from the LLM (non-empty whenever the LLM
never answers blank), stores it on the session, and keeps exactly the 5 most
recent messages (by `created_at` order). -/
theorem summarizeOldMessages_spec :
    ∀ (llm : String → String) (st : SessionState),
      (st.messages.length ≤ SUMMARIZATION_THRESHOLD →
        summarizeOldMessages llm st = (none, st)) ∧
      (SUMMARIZATION_THRESHOLD < st.messages.length →
        (st.messages.map (fun m => m.message_id)).Nodup →
        (∀ t, llm t ≠ "") →
        ∃ s ml, summarizeOldMessages llm st = (some s, ⟨some s, ml⟩) ∧
          s ≠ "" ∧ ml.length = 5 ∧
          ∀ m ∈ ml, m ∈ (sortBy (fun a b => decide (a.created_at < b.created_at))
            st.messages).drop (st.messages.length - 5)) := by
  intro llm st
  constructor
  · intro h
    simp only [summarizeOldMessages]
    rw [if_pos h]
  · intro hgt hnd hllm
    have hperm := sortBy_perm (fun a b : ChatMessage => decide (a.created_at < b.created_at))
      st.messages
    have hgt10 : 10 < st.messages.length := hgt
    have hslen : (sortBy (fun a b : ChatMessage => decide (a.created_at < b.created_at))
        st.messages).length = st.messages.length := hperm.length_eq
    have htlen : (((sortBy (fun a b : ChatMessage => decide (a.created_at < b.created_at))
        st.messages).take (st.messages.length - 5))).length = st.messages.length - 5 := by
      rw [List.length_take, hslen]
      omega
    have hne : ¬((((sortBy (fun a b : ChatMessage => decide (a.created_at < b.created_at))
        st.messages).take (st.messages.length - 5))).isEmpty = true) := by
      intro hE
      rw [List.isEmpty_iff] at hE
      rw [hE] at htlen
      simp only [List.length_nil] at htlen
      omega
    have hkeep := keep_recent_msgs st.messages
      (sortBy (fun a b : ChatMessage => decide (a.created_at < b.created_at)) st.messages)
      (st.messages.length - 5) hperm (by omega) hnd
    refine ⟨llm (conversationText ((sortBy (fun a b =>
        decide (a.created_at < b.created_at)) st.messages).take (st.messages.length - 5))),
      st.messages.filter (fun m =>
        !(((sortBy (fun a b => decide (a.created_at < b.created_at))
          st.messages).take (st.messages.length - 5)).map
            (fun m => m.message_id)).contains m.message_id),
      ?_, hllm _, ?_, hkeep.2⟩
    · simp only [summarizeOldMessages]
      rw [if_neg (not_le.mpr hgt), if_neg hne]
    · rw [hkeep.1]
      omega

/-- C5 witness: a 12-message session with distinct ids and a constant
non-blank summarizer yields a stored non-empty summary and exactly 5 kept
messages; a 1-message session is untouched. -/
theorem summarizeOldMessages_spec_witness :
    (summarizeOldMessages (fun _ => "요약") ⟨none, [⟨"a", "user", "x", 1⟩]⟩ =
      (none, ⟨none, [⟨"a", "user", "x", 1⟩]⟩)) ∧
    (SUMMARIZATION_THRESHOLD <
      ([⟨"m1", "user", "c1", 1⟩, ⟨"m2", "assistant", "c2", 2⟩, ⟨"m3", "user", "c3", 3⟩,
        ⟨"m4", "assistant", "c4", 4⟩, ⟨"m5", "user", "c5", 5⟩, ⟨"m6", "assistant", "c6", 6⟩,
        ⟨"m7", "user", "c7", 7⟩, ⟨"m8", "assistant", "c8", 8⟩, ⟨"m9", "user", "c9", 9⟩,
        ⟨"m10", "assistant", "c10", 10⟩, ⟨"m11", "user", "c11", 11⟩,
        ⟨"m12", "assistant", "c12", 12⟩] : List ChatMessage).length) ∧
    ∃ s ml, summarizeOldMessages (fun _ => "요약")
        ⟨none, [⟨"m1", "user", "c1", 1⟩, ⟨"m2", "assistant", "c2", 2⟩, ⟨"m3", "user", "c3", 3⟩,
          ⟨"m4", "assistant", "c4", 4⟩, ⟨"m5", "user", "c5", 5⟩, ⟨"m6", "assistant", "c6", 6⟩,
          ⟨"m7", "user", "c7", 7⟩, ⟨"m8", "assistant", "c8", 8⟩, ⟨"m9", "user", "c9", 9⟩,
          ⟨"m10", "assistant", "c10", 10⟩, ⟨"m11", "user", "c11", 11⟩,
          ⟨"m12", "assistant", "c12", 12⟩]⟩ = (some s, ⟨some s, ml⟩) ∧
      s ≠ "" ∧ ml.length = 5 ∧
      ∀ m ∈ ml, m ∈ (sortBy (fun a b => decide (a.created_at < b.created_at))
        ([⟨"m1", "user", "c1", 1⟩, ⟨"m2", "assistant", "c2", 2⟩, ⟨"m3", "user", "c3", 3⟩,
          ⟨"m4", "assistant", "c4", 4⟩, ⟨"m5", "user", "c5", 5⟩, ⟨"m6", "assistant", "c6", 6⟩,
          ⟨"m7", "user", "c7", 7⟩, ⟨"m8", "assistant", "c8", 8⟩, ⟨"m9", "user", "c9", 9⟩,
          ⟨"m10", "assistant", "c10", 10⟩, ⟨"m11", "user", "c11", 11⟩,
          ⟨"m12", "assistant", "c12", 12⟩] : List ChatMessage)).drop
        (([⟨"m1", "user", "c1", 1⟩, ⟨"m2", "assistant", "c2", 2⟩, ⟨"m3", "user", "c3", 3⟩,
          ⟨"m4", "assistant", "c4", 4⟩, ⟨"m5", "user", "c5", 5⟩, ⟨"m6", "assistant", "c6", 6⟩,
          ⟨"m7", "user", "c7", 7⟩, ⟨"m8", "assistant", "c8", 8⟩, ⟨"m9", "user", "c9", 9⟩,
          ⟨"m10", "assistant", "c10", 10⟩, ⟨"m11", "user", "c11", 11⟩,
          ⟨"m12", "assistant", "c12", 12⟩] : List ChatMessage).length - 5) :=
  ⟨(summarizeOldMessages_spec (fun _ => "요약") ⟨none, [⟨"a", "user", "x", 1⟩]⟩).1 (by decide),
    by decide,
    (summarizeOldMessages_spec (fun _ => "요약")
      ⟨none, [⟨"m1", "user", "c1", 1⟩, ⟨"m2", "assistant", "c2", 2⟩, ⟨"m3", "user", "c3", 3⟩,
        ⟨"m4", "assistant", "c4", 4⟩, ⟨"m5", "user", "c5", 5⟩, ⟨"m6", "assistant", "c6", 6⟩,
        ⟨"m7", "user", "c7", 7⟩, ⟨"m8", "assistant", "c8", 8⟩, ⟨"m9", "user", "c9", 9⟩,
        ⟨"m10", "assistant", "c10", 10⟩, ⟨"m11", "user", "c11", 11⟩,
        ⟨"m12", "assistant", "c12", 12⟩]⟩).2 (by decide) (by decide)
      (fun t => by decide)⟩

/-- A list starts with itself (followed by anything). -/
theorem startsWithL_self_append (l t : List Char) : startsWithL l (l ++ t) = true := by
  induction l with
  | nil => rfl
  | cons p ps ih => simp [startsWithL, ih]

/-- A match at the head is a substring occurrence. -/
theorem containsSub_of_startsWith (pat l : List Char) (h : startsWithL pat l = true) :
    containsSub pat l = true := by
  cases l with
  | nil => exact h
  | cons c rest => simp [containsSub, h]

/-- A pattern planted between two arbitrary context lists is found by the
substring test. -/
theorem containsSub_append_mid (pre pat suf : List Char) :
    containsSub pat (pre ++ pat ++ suf) = true := by
  induction pre with
  | nil =>
    rw [List.nil_append]
    exact containsSub_of_startsWith _ _ (startsWithL_self_append pat suf)
  | cons c pre ih =>
    rw [List.cons_append, List.cons_append]
    show (startsWithL pat (c :: (pre ++ pat ++ suf)) ||
      containsSub pat (pre ++ pat ++ suf)) = true
    rw [Bool.or_eq_true]
    right
    exact ih

/-- When the pattern occurs, `replaceFirstL` produces the replacement framed
by some context. -/
theorem replaceFirstL_parts (pat val : List Char) :
    ∀ l, containsSub pat l = true →
      ∃ pre suf, replaceFirstL pat val l = pre ++ val ++ suf := by
  intro l
  induction l with
  | nil =>
    intro h
    refine ⟨[], [], ?_⟩
    have h' : startsWithL pat [] = true := h
    rw [replaceFirstL, if_pos h']
    simp
  | cons c rest ih =>
    intro h
    cases hs : startsWithL pat (c :: rest) with
    | true =>
      refine ⟨[], (c :: rest).drop pat.length, ?_⟩
      rw [replaceFirstL, if_pos hs]
      simp
    | false =>
      rw [containsSub, hs, Bool.false_or] at h
      obtain ⟨pre, suf, heq⟩ := ih h
      refine ⟨c :: pre, suf, ?_⟩
      rw [replaceFirstL, if_neg (by rw [hs]; exact Bool.false_ne_true), heq]
      simp

/-- Replacing an occurring pattern makes the replacement a substring of the
result. -/
theorem contains_replaceFirst (pat val l : List Char) (h : containsSub pat l = true) :
    containsSub val (replaceFirstL pat val l) = true := by
  obtain ⟨pre, suf, heq⟩ := replaceFirstL_parts pat val l h
  rw [heq]
  exact containsSub_append_mid pre val suf

/-- `updateEntityMap` only introduces the given value; all other entries keep
a value already present. -/
theorem updateEntityMap_value (m : List ExtractedEntity) (v : String) (ty : EntityType)
    (id : Int) (color : String) :
    ∀ e ∈ updateEntityMap m v ty id color,
      e.value = v ∨ ∃ e0 ∈ m, e.value = e0.value := by
  induction m with
  | nil =>
    intro e he
    simp only [updateEntityMap, List.mem_singleton] at he
    subst he
    exact Or.inl rfl
  | cons e0 rest ih =>
    intro e he
    simp only [updateEntityMap] at he
    split_ifs at he with hv hd
    · rcases List.mem_cons.mp he with heq | hr
      · exact Or.inr ⟨e0, List.mem_cons_self e0 rest, by rw [heq]⟩
      · exact Or.inr ⟨e, List.mem_cons_of_mem e0 hr, rfl⟩
    · rcases List.mem_cons.mp he with heq | hr
      · exact Or.inr ⟨e0, List.mem_cons_self e0 rest, by rw [heq]⟩
      · exact Or.inr ⟨e, List.mem_cons_of_mem e0 hr, rfl⟩
    · rcases List.mem_cons.mp he with heq | hr
      · exact Or.inr ⟨e0, List.mem_cons_self e0 rest, by rw [heq]⟩
      · rcases ih e hr with h | ⟨e1, he1, hv1⟩
        · exact Or.inl h
        · exact Or.inr ⟨e1, List.mem_cons_of_mem e0 he1, hv1⟩

/-- Provenance of entity values through a fold that only adds values blessed
by `Q`. -/
theorem foldl_entity_values {β : Type} (l : List β)
    (step : List ExtractedEntity → β → List ExtractedEntity)
    (Q : β → String → Prop)
    (hstep : ∀ acc b e, e ∈ step acc b →
      (∃ e0 ∈ acc, e.value = e0.value) ∨ Q b e.value) :
    ∀ acc e, e ∈ l.foldl step acc →
      (∃ e0 ∈ acc, e.value = e0.value) ∨ ∃ b ∈ l, Q b e.value := by
  induction l with
  | nil =>
    intro acc e he
    exact Or.inl ⟨e, he, rfl⟩
  | cons b t ih =>
    intro acc e he
    rcases ih (step acc b) e he with ⟨e0, he0, hv⟩ | ⟨b', hb', hq⟩
    · rcases hstep acc b e0 he0 with ⟨e1, he1, hv1⟩ | hq
      · exact Or.inl ⟨e1, he1, hv.trans hv1⟩
      · exact Or.inr ⟨b, List.mem_cons_self b t, by rw [hv]; exact hq⟩
    · exact Or.inr ⟨b', List.mem_cons_of_mem b hb', hq⟩

/-- Every value in the entity map after one diary is processed either was
there before, or occurs in the diary content (keyword passes), or is the
cleaned form of one of the content's whitespace-split words (word pass). -/
theorem processDiaryEntities_value (m : List ExtractedEntity) (d : DiarySearchResult) :
    ∀ e ∈ processDiaryEntities m d,
      (∃ e0 ∈ m, e.value = e0.value) ∨
      containsSub e.value.data (d.content.data.map jsToLowerChar) = true ∨
      ∃ w ∈ splitWs (d.content.data.map jsToLowerChar),
        e.value = String.mk (cleanWordChars w) := by
  intro e he
  simp only [processDiaryEntities] at he
  have hkwstep : ∀ (ty : EntityType) (acc : List ExtractedEntity) (kw : String)
      (e' : ExtractedEntity),
      e' ∈ (if containsSub kw.data (d.content.data.map jsToLowerChar) then
        updateEntityMap acc kw ty d.diary_id d.color else acc) →
      (∃ e0 ∈ acc, e'.value = e0.value) ∨
        (e'.value = kw ∧
          containsSub kw.data (d.content.data.map jsToLowerChar) = true) := by
    intro ty acc kw e' he'
    split_ifs at he' with hc
    · rcases updateEntityMap_value acc kw ty d.diary_id d.color e' he' with h | h
      · exact Or.inr ⟨h, hc⟩
      · exact Or.inl h
    · exact Or.inl ⟨e', he', rfl⟩
  rcases foldl_entity_values PLACE_KEYWORDS _
      (fun kw v => v = kw ∧
        containsSub kw.data (d.content.data.map jsToLowerChar) = true)
      (hkwstep EntityType.place) _ e he with ⟨e3, he3, hv3⟩ | ⟨kw, _, hq⟩
  · rcases foldl_entity_values PERSON_KEYWORDS _
        (fun kw v => v = kw ∧
          containsSub kw.data (d.content.data.map jsToLowerChar) = true)
        (hkwstep EntityType.person) _ e3 he3 with ⟨e2, he2, hv2⟩ | ⟨kw, _, hq⟩
    · rcases foldl_entity_values ACTIVITY_KEYWORDS _
          (fun kw v => v = kw ∧
            containsSub kw.data (d.content.data.map jsToLowerChar) = true)
          (hkwstep EntityType.activity) _ e2 he2 with ⟨e1, he1, hv1⟩ | ⟨kw, _, hq⟩
      · have hwstep : ∀ (acc : List ExtractedEntity) (w : List Char)
            (e' : ExtractedEntity),
            e' ∈ (match classifyCleanWord (String.mk (cleanWordChars w)) with
              | some ty =>
                updateEntityMap acc (String.mk (cleanWordChars w)) ty d.diary_id d.color
              | none => acc) →
            (∃ e0 ∈ acc, e'.value = e0.value) ∨
              e'.value = String.mk (cleanWordChars w) := by
          intro acc w e' he'
          rcases hcl : classifyCleanWord (String.mk (cleanWordChars w)) with _ | ty
          · simp only [hcl] at he'
            exact Or.inl ⟨e', he', rfl⟩
          · simp only [hcl] at he'
            rcases updateEntityMap_value acc (String.mk (cleanWordChars w)) ty
                d.diary_id d.color e' he' with h | h
            · exact Or.inr h
            · exact Or.inl h
        rcases foldl_entity_values (splitWs (d.content.data.map jsToLowerChar)) _
            (fun w v => v = String.mk (cleanWordChars w))
            hwstep _ e1 he1 with ⟨e0, he0, hv0⟩ | ⟨w, hw, hq⟩
        · exact Or.inl ⟨e0, he0, (hv3.trans (hv2.trans hv1)).trans hv0⟩
        · exact Or.inr (Or.inr ⟨w, hw, (hv3.trans (hv2.trans hv1)).trans hq⟩)
      · refine Or.inr (Or.inl ?_)
        rw [hv3, hv2, hq.1]
        exact hq.2
    · refine Or.inr (Or.inl ?_)
      rw [hv3, hq.1]
      exact hq.2
  · refine Or.inr (Or.inl ?_)
    rw [hq.1]
    exact hq.2

/-- Every entity delivered by `extractEntities` traces its value back to some
input diary: a substring of the content or the cleaned form of one of its
words. -/
theorem extractEntities_value (diaries : List DiarySearchResult) :
    ∀ e ∈ extractEntities diaries,
      ∃ d ∈ diaries,
        containsSub e.value.data (d.content.data.map jsToLowerChar) = true ∨
        ∃ w ∈ splitWs (d.content.data.map jsToLowerChar),
          e.value = String.mk (cleanWordChars w) := by
  intro e he
  unfold extractEntities at he
  split_ifs at he
  · exact absurd he (List.not_mem_nil e)
  · rw [mem_sortBy] at he
    have hstep : ∀ (acc : List ExtractedEntity) (b : DiarySearchResult)
        (e' : ExtractedEntity), e' ∈ processDiaryEntities acc b →
        (∃ e0 ∈ acc, e'.value = e0.value) ∨
          (containsSub e'.value.data (b.content.data.map jsToLowerChar) = true ∨
            ∃ w ∈ splitWs (b.content.data.map jsToLowerChar),
              e'.value = String.mk (cleanWordChars w)) := by
      intro acc b e' he'
      rcases processDiaryEntities_value acc b e' he' with h | h | h
      · exact Or.inl h
      · exact Or.inr (Or.inl h)
      · exact Or.inr (Or.inr h)
    rcases foldl_entity_values diaries processDiaryEntities
        (fun d v => containsSub v.data (d.content.data.map jsToLowerChar) = true ∨
          ∃ w ∈ splitWs (d.content.data.map jsToLowerChar),
            v = String.mk (cleanWordChars w))
        hstep [] e he with ⟨e0, he0, _⟩ | ⟨d, hd, hq⟩
    · exact absurd he0 (List.not_mem_nil e0)
    · exact ⟨d, hd, hq⟩

/-- Each template table has exactly three entries. -/
theorem suggestionTemplates_length (ty : EntityType) (mc : String) :
    (suggestionTemplates ty mc).length = 3 := by
  cases ty <;> unfold suggestionTemplates <;> split_ifs <;> rfl

/-- Every template mentions the `{entity}` placeholder. -/
theorem suggestionTemplates_contain (ty : EntityType) (mc : String) :
    ∀ t ∈ suggestionTemplates ty mc, containsSub "{entity}".data t.data = true := by
  cases ty <;> unfold suggestionTemplates <;> split_ifs <;> decide

/-- Invariant of the suggestion loop: produced suggestions are based on one
input entity whose value occurs in the suggestion text. -/
theorem buildSuggestions_spec (neg : Bool) (maxS : Nat) (E : ExtractedEntity → Prop) :
    ∀ (entities : List ExtractedEntity) (used : List String)
      (acc : List PersonalizedSuggestion),
      (∀ e ∈ entities, E e) →
      (∀ s ∈ acc, ∃ e, E e ∧ s.basedOn = [e] ∧
        containsSub e.value.data s.suggestion.data = true) →
      ∀ s ∈ buildSuggestions neg maxS entities used acc,
        ∃ e, E e ∧ s.basedOn = [e] ∧
          containsSub e.value.data s.suggestion.data = true := by
  intro entities
  induction entities with
  | nil =>
    intro used acc hE hacc s hs
    exact hacc s hs
  | cons entity rest ih =>
    intro used acc hE hacc s hs
    simp only [buildSuggestions] at hs
    by_cases h1 : maxS ≤ acc.length
    · rw [if_pos h1] at hs
      exact hacc s hs
    · rw [if_neg h1] at hs
      by_cases h2 : used.contains entity.value = true
      · rw [if_pos h2] at hs
        exact ih used acc (fun e he => hE e (List.mem_cons_of_mem entity he)) hacc s hs
      · rw [if_neg h2] at hs
        refine ih _ _ (fun e he => hE e (List.mem_cons_of_mem entity he)) ?_ s hs
        intro s' hs'
        rcases List.mem_append.mp hs' with hold | hnew
        · exact hacc s' hold
        · rw [List.mem_singleton] at hnew
          subst hnew
          refine ⟨entity, hE entity (List.mem_cons_self entity rest), rfl, ?_⟩
          show containsSub entity.value.data
            (replaceFirstL "{entity}".data entity.value.data
              (((suggestionTemplates entity.type
                (if neg = true then "negative" else getMoodContext entity.moodColors)).getD
                (acc.length % (suggestionTemplates entity.type
                  (if neg = true then "negative"
                   else getMoodContext entity.moodColors)).length)
                "").data)) = true
          apply contains_replaceFirst
          apply suggestionTemplates_contain
          have hlen := suggestionTemplates_length entity.type
            (if neg = true then "negative" else getMoodContext entity.moodColors)
          have hidx : acc.length % (suggestionTemplates entity.type
              (if neg = true then "negative"
               else getMoodContext entity.moodColors)).length <
              (suggestionTemplates entity.type
              (if neg = true then "negative"
               else getMoodContext entity.moodColors)).length := by
            rw [hlen]
            exact Nat.mod_lt _ (by norm_num)
          rw [List.getD_eq_getElem?_getD, List.getElem?_eq_getElem hidx,
            Option.getD_some]
          exact List.getElem_mem _

/-- Entities fed to the suggestion loop (any sort order) carry provenance
from the diaries. -/
theorem sorted_entities_prov (diaries : List DiarySearchResult)
    (cmp : ExtractedEntity → ExtractedEntity → Bool) :
    ∀ e ∈ sortBy cmp (extractEntities diaries),
      ∃ d ∈ diaries,
        containsSub e.value.data (d.content.data.map jsToLowerChar) = true ∨
        ∃ w ∈ splitWs (d.content.data.map jsToLowerChar),
          e.value = String.mk (cleanWordChars w) := by
  intro e he
  rw [mem_sortBy] at he
  exact extractEntities_value diaries e he

/-- C7 (amended): every suggestion is based on exactly one entity whose
value occurs literally in the suggestion text, and that value traces back to
some input diary — as a substring of its lower-cased content, or as the
cleaned form (word characters and Hangul only) of one of the content's
whitespace-split words.  The original claim's stronger "substring of some
diary's content" fails on the word path, where punctuation inside a word is
stripped before the keyword lookup. -/
theorem generatePersonalizedSuggestions_grounded :
    ∀ (diaries : List DiarySearchResult) (currentMood : Option String) (maxS : Nat),
      ∀ s ∈ generatePersonalizedSuggestions diaries currentMood maxS,
        ∃ e, s.basedOn = [e] ∧
          containsSub e.value.data s.suggestion.data = true ∧
          ∃ d ∈ diaries,
            containsSub e.value.data (d.content.data.map jsToLowerChar) = true ∨
            ∃ w ∈ splitWs (d.content.data.map jsToLowerChar),
              e.value = String.mk (cleanWordChars w) := by
  intro diaries mood maxS s hs
  simp only [generatePersonalizedSuggestions] at hs
  split_ifs at hs
  · exact absurd hs (List.not_mem_nil s)
  · exact absurd hs (List.not_mem_nil s)
  all_goals
    obtain ⟨e, hEe, hb, hc⟩ := buildSuggestions_spec _ maxS
      (fun e => ∃ d ∈ diaries,
        containsSub e.value.data (d.content.data.map jsToLowerChar) = true ∨
        ∃ w ∈ splitWs (d.content.data.map jsToLowerChar),
          e.value = String.mk (cleanWordChars w))
      _ [] [] (sorted_entities_prov diaries _)
      (fun s' hs' => absurd hs' (List.not_mem_nil s')) s hs
    exact ⟨e, hb, hc, hEe⟩

/-- C7 witness: for the single diary "운동" the produced suggestion embeds
the entity value 운동, which is also a substring of the diary content. -/
theorem generatePersonalizedSuggestions_grounded_witness :
    (⟨"운동을(를) 하면서 좋은 시간을 보냈던 것 같아. 다시 해보는 건 어때?",
      [⟨EntityType.activity, "운동", 1, [1], ["노란색"]⟩], [1], "positive"⟩ :
      PersonalizedSuggestion) ∈
      generatePersonalizedSuggestions [⟨1, "t", "운동", 5, "노란색", 1⟩] none 5 ∧
    ∃ e, (⟨"운동을(를) 하면서 좋은 시간을 보냈던 것 같아. 다시 해보는 건 어때?",
        [⟨EntityType.activity, "운동", 1, [1], ["노란색"]⟩], [1], "positive"⟩ :
        PersonalizedSuggestion).basedOn = [e] ∧
      containsSub e.value.data
        (⟨"운동을(를) 하면서 좋은 시간을 보냈던 것 같아. 다시 해보는 건 어때?",
          [⟨EntityType.activity, "운동", 1, [1], ["노란색"]⟩], [1], "positive"⟩ :
          PersonalizedSuggestion).suggestion.data = true ∧
      ∃ d ∈ [(⟨1, "t", "운동", 5, "노란색", 1⟩ : DiarySearchResult)],
        containsSub e.value.data (d.content.data.map jsToLowerChar) = true ∨
        ∃ w ∈ splitWs (d.content.data.map jsToLowerChar),
          e.value = String.mk (cleanWordChars w) :=
  ⟨by decide,
    generatePersonalizedSuggestions_grounded [⟨1, "t", "운동", 5, "노란색", 1⟩] none 5
      ⟨"운동을(를) 하면서 좋은 시간을 보냈던 것 같아. 다시 해보는 건 어때?",
        [⟨EntityType.activity, "운동", 1, [1], ["노란색"]⟩], [1], "positive"⟩
      (by decide)⟩

/-- C7 counterexample: the diary content "운!동" yields the entity 운동 via
word cleaning (the `!` is stripped), so the suggestion's entity value is not
a substring of any input diary content — the claim as stated fails. -/
theorem generatePersonalizedSuggestions_grounded_cex :
    generatePersonalizedSuggestions [⟨1, "t", "운!동", 5, "노란색", 1⟩] none 5 =
      [⟨"운동을(를) 하면서 좋은 시간을 보냈던 것 같아. 다시 해보는 건 어때?",
        [⟨EntityType.activity, "운동", 1, [1], ["노란색"]⟩], [1], "positive"⟩] ∧
    containsSub "운동".data ("운!동".data.map jsToLowerChar) = false := by
  constructor
  · decide
  · decide

/-- `groupUpd` puts a diary only into the bucket keyed by its own group
color key. -/
theorem groupUpd_mem (P : DiarySearchResult → Prop) :
    ∀ (acc : List (String × List DiarySearchResult)) (d0 : DiarySearchResult),
      (∀ g ∈ acc, ∀ d ∈ g.2, P d ∧ groupColorKey d = g.1) → P d0 →
      ∀ g ∈ groupUpd acc d0, ∀ d ∈ g.2, P d ∧ groupColorKey d = g.1 := by
  intro acc
  induction acc with
  | nil =>
    intro d0 hacc hP g hg d hd
    simp only [groupUpd, List.mem_singleton] at hg
    subst hg
    rw [List.mem_singleton] at hd
    subst hd
    exact ⟨hP, rfl⟩
  | cons g0 rest ih =>
    intro d0 hacc hP g hg d hd
    obtain ⟨c, ds⟩ := g0
    simp only [groupUpd] at hg
    split_ifs at hg with hc
    · rcases List.mem_cons.mp hg with heq | hr
      · subst heq
        rcases List.mem_append.mp hd with hds | hd0
        · exact hacc (c, ds) (List.mem_cons_self _ _) d hds
        · rw [List.mem_singleton] at hd0
          subst hd0
          refine ⟨hP, ?_⟩
          rw [beq_iff_eq] at hc
          exact hc.symm
      · exact hacc g (List.mem_cons_of_mem _ hr) d hd
    · rcases List.mem_cons.mp hg with heq | hr
      · subst heq
        exact hacc (c, ds) (List.mem_cons_self _ _) d hd
      · exact ih d0 (fun g' hg' => hacc g' (List.mem_cons_of_mem _ hg')) hP g hr d hd

/-- The color-grouping fold: every diary in a bucket satisfies the invariant
and matches the bucket's key. -/
theorem foldGroups_mem (P : DiarySearchResult → Prop) :
    ∀ (l : List DiarySearchResult) (acc : List (String × List DiarySearchResult)),
      (∀ g ∈ acc, ∀ d ∈ g.2, P d ∧ groupColorKey d = g.1) →
      (∀ d ∈ l, P d) →
      ∀ g ∈ l.foldl groupUpd acc, ∀ d ∈ g.2, P d ∧ groupColorKey d = g.1 := by
  intro l
  induction l with
  | nil =>
    intro acc hacc _ g hg
    exact hacc g hg
  | cons d0 t ih =>
    intro acc hacc hl
    exact ih (groupUpd acc d0)
      (groupUpd_mem P acc d0 hacc (hl d0 (List.mem_cons_self _ _)))
      (fun d hd => hl d (List.mem_cons_of_mem _ hd))

/-- C8 (amended): in `extractEmotionTriggers`, every diary id and every
example of the trigger group for mood color C comes from an input diary
whose group color key — its `color`, or 알 수 없음 when the color is the
empty string — equals C.  For diaries with a non-empty color the key is the
color itself, so the original purity claim holds except on the empty-color
fallback bucket. -/
theorem extractEmotionTriggers_purity :
    ∀ (diaries : List DiarySearchResult),
      ∀ t ∈ extractEmotionTriggers diaries,
        (∀ i ∈ t.diaryIds, ∃ d ∈ diaries,
          d.diary_id = i ∧ groupColorKey d = t.moodColor) ∧
        (∀ ex ∈ t.examples, ∃ d ∈ diaries,
          mkDiaryExample d = ex ∧ groupColorKey d = t.moodColor) := by
  intro diaries t ht
  simp only [extractEmotionTriggers] at ht
  split_ifs at ht
  · exact absurd ht (List.not_mem_nil t)
  · rw [mem_sortBy, List.mem_map] at ht
    obtain ⟨g, hg, hgt⟩ := ht
    have hinv := foldGroups_mem (fun d => d ∈ diaries) diaries []
      (fun g' hg' => absurd hg' (List.not_mem_nil g')) (fun d hd => hd) g hg
    subst hgt
    constructor
    · intro i hi
      have hi' : i ∈ g.2.map (fun d => d.diary_id) := hi
      rw [List.mem_map] at hi'
      obtain ⟨d, hd, hdi⟩ := hi'
      exact ⟨d, (hinv d hd).1, hdi, (hinv d hd).2⟩
    · intro ex hex
      have hex' : ex ∈ (g.2.take 3).map mkDiaryExample := hex
      rw [List.mem_map] at hex'
      obtain ⟨d, hd3, hde⟩ := hex'
      have hd := (List.take_sublist 3 g.2).mem hd3
      exact ⟨d, (hinv d hd).1, hde, (hinv d hd).2⟩

/-- C8 witness: a green diary lands in the 초록색 group, and the theorem
traces its id and example back to a diary whose key is 초록색. -/
theorem extractEmotionTriggers_purity_witness :
    (⟨"초록색", [], [1], [⟨1, "t", 5, "c"⟩]⟩ : EmotionTrigger) ∈
      extractEmotionTriggers [⟨1, "t", "c", 5, "초록색", 1⟩] ∧
    ((∀ i ∈ ([1] : List Int),
        ∃ d ∈ [(⟨1, "t", "c", 5, "초록색", 1⟩ : DiarySearchResult)],
          d.diary_id = i ∧ groupColorKey d = "초록색") ∧
      (∀ ex ∈ [(⟨1, "t", 5, "c"⟩ : DiaryExample)],
        ∃ d ∈ [(⟨1, "t", "c", 5, "초록색", 1⟩ : DiarySearchResult)],
          mkDiaryExample d = ex ∧ groupColorKey d = "초록색")) :=
  ⟨by decide,
    extractEmotionTriggers_purity [⟨1, "t", "c", 5, "초록색", 1⟩]
      ⟨"초록색", [], [1], [⟨1, "t", 5, "c"⟩]⟩ (by decide)⟩

/-- C8 counterexample: a diary whose `color` is the empty string is grouped
under the fallback bucket 알 수 없음, a mood color no input diary has — the
claim as stated (group color equals the diary's `color` field) fails. -/
theorem extractEmotionTriggers_purity_cex :
    extractEmotionTriggers [⟨1, "t", "c", 5, "", 1⟩] =
      [⟨"알 수 없음", [], [1], [⟨1, "t", 5, "c"⟩]⟩] ∧
    (⟨1, "t", "c", 5, "", 1⟩ : DiarySearchResult).color ≠ "알 수 없음" := by
  constructor
  · decide
  · decide

/-- C9 (amended): every SSE trace starts with exactly one `session` event,
continues with only `token` events, and ends with exactly one terminal event
(`done`/`error`) after which nothing is emitted; in the failure case and in
the success case with a non-blank sanitized response the token events are
exactly the N delivered fragments in order.  (When the sanitized response is
blank, the controller streams the supportive fallback as additional token
events, so "exactly N" fails as stated.) -/
theorem sendMessageEvents_shape :
    ∀ (san : String → String) (sessionId : String) (outcome : GenOutcome),
      ∃ mid term,
        sendMessageEvents san sessionId outcome =
          SSEEvent.sessionEv sessionId :: (mid ++ [term]) ∧
        (∀ ev ∈ mid, isTokenEv ev = true) ∧
        isTerminalEv term = true ∧
        (∀ tokens response diaryIds action,
          outcome = GenOutcome.success tokens response diaryIds action →
          ¬(isBlankJs (san response) = true) →
          mid = tokens.map SSEEvent.tokenEv ∧ term = SSEEvent.doneEv diaryIds action) ∧
        (∀ tokens errMsg, outcome = GenOutcome.failure tokens errMsg →
          mid = tokens.map SSEEvent.tokenEv ∧ term = SSEEvent.errorEv errMsg none) := by
  intro san sessionId outcome
  cases outcome with
  | success tokens response diaryIds action =>
    by_cases hb : isBlankJs (san response) = true
    · refine ⟨tokens.map SSEEvent.tokenEv ++
        DEFAULT_SUPPORTIVE_MESSAGE.data.map (fun c => SSEEvent.tokenEv (String.mk [c])),
        SSEEvent.doneEv diaryIds action, ?_, ?_, rfl, ?_, ?_⟩
      · simp only [sendMessageEvents]
        rw [if_pos hb]
      · intro ev hev
        rcases List.mem_append.mp hev with h | h <;>
          · rw [List.mem_map] at h
            obtain ⟨x, _, hx⟩ := h
            rw [← hx]
            rfl
      · intro t' r' d' a' heq hb'
        injection heq with h1 h2 h3 h4
        subst h2
        exact absurd hb hb'
      · intro t' e' heq
        exact GenOutcome.noConfusion heq
    · refine ⟨tokens.map SSEEvent.tokenEv, SSEEvent.doneEv diaryIds action,
        ?_, ?_, rfl, ?_, ?_⟩
      · simp only [sendMessageEvents]
        rw [if_neg hb, List.append_nil]
      · intro ev hev
        rw [List.mem_map] at hev
        obtain ⟨x, _, hx⟩ := hev
        rw [← hx]
        rfl
      · intro t' r' d' a' heq _
        injection heq with h1 h2 h3 h4
        subst h1
        subst h3
        subst h4
        exact ⟨rfl, rfl⟩
      · intro t' e' heq
        exact GenOutcome.noConfusion heq
  | failure tokens errMsg =>
    refine ⟨tokens.map SSEEvent.tokenEv, SSEEvent.errorEv errMsg none,
      rfl, ?_, rfl, ?_, ?_⟩
    · intro ev hev
      rw [List.mem_map] at hev
      obtain ⟨x, _, hx⟩ := hev
      rw [← hx]
      rfl
    · intro t' r' d' a' heq
      exact GenOutcome.noConfusion heq
    · intro t' e' heq
      injection heq with h1 h2
      subst h1
      subst h2
      exact ⟨rfl, rfl⟩

/-- C9 witness: a two-fragment successful generation with a non-blank
response yields the trace session, the two tokens in order, then `done`. -/
theorem sendMessageEvents_shape_witness :
    ∃ mid term,
      sendMessageEvents (fun s => s) "sess"
          (GenOutcome.success ["안", "녕"] "안녕" [] none) =
        SSEEvent.sessionEv "sess" :: (mid ++ [term]) ∧
      mid = ["안", "녕"].map SSEEvent.tokenEv ∧
      term = SSEEvent.doneEv [] none ∧
      isTerminalEv term = true := by
  obtain ⟨mid, term, heq, _, hterm, hsucc, _⟩ :=
    sendMessageEvents_shape (fun s => s) "sess"
      (GenOutcome.success ["안", "녕"] "안녕" [] none)
  obtain ⟨hmid, hterm'⟩ := hsucc ["안", "녕"] "안녕" [] none rfl (by decide)
  exact ⟨mid, term, heq, hmid, hterm', hterm⟩

/-- C9 counterexample: one delivered fragment " " with the identity
sanitizer is blank, so the controller streams the 39-character supportive
fallback as extra token events: 40 token events for N = 1 fragments. -/
theorem sendMessageEvents_shape_cex :
    ([" "].length = 1) ∧
    (sendMessageEvents (fun s => s) "s"
        (GenOutcome.success [" "] " " [] none)).countP isTokenEv = 40 ∧
    (40 : Nat) ≠ 1 := by
  refine ⟨rfl, ?_, by decide⟩
  decide
